import Mathlib

/-! Blob log writer (`db/blob_log_writer.cc`).

A shallow embedding of `rocksdb::blob_log::Writer` and the properties of its
record framing, offset bookkeeping and sync schedule.

Conventions of the embedding:

* bytes are natural numbers (a byte string is a `List Nat`);
* `uint32_t` / `uint64_t` arithmetic is arithmetic on `Nat` reduced
  `% 2 ^ 32` / `% 2 ^ 64` wherever the C++ code stores into such a variable;
* the underlying `WritableFileWriter` is an explicit state: the bytes it has
  accepted, the log of calls made on it, and the list of replies the
  environment will give to the next calls (an empty list means success);
* `dest_` is a `unique_ptr`, modelled as an `Option`; calling through a null
  `dest_` is undefined in C++ and yields `none` here;
* the stack array `char buf[kHeaderSize]` of `EmitPhysicalRecord` is not
  initialised by the code; its prior contents are an explicit argument.
-/

namespace BlobLog

/-! ## Collaborators that are not part of `db/blob_log_writer.cc` -/

/-- Modelled from the spec: the size of the fixed record header, `kHeaderSize`
of `db/blob_log_format.h` (the spec fixes the header at 30 bytes:
4 + 4 + 8 + 4 + 8 + 1 + 1). -/
def kHeaderSize : Nat := 30

/-- Modelled from the spec: the constants and checksum helpers that
`blob_log_writer.cc` takes from `db/blob_log_format.h` and `util/crc32c.h`.
The spec gives no numeric value for the record type and subtype tags and does
not define the checksum or the masking transform, so they are parameters of
the embedding: `kFullType`, `kRegularType`, `kTTLType`, `kMaxRecordType` are the
enum values, `Value`, `Extend` and `Mask` are `crc32c::Value`,
`crc32c::Extend` and `crc32c::Mask`. -/
structure Externals where
  kFullType : Nat
  kRegularType : Nat
  kTTLType : Nat
  kMaxRecordType : Nat
  Value : List Nat → Nat
  Extend : Nat → List Nat → Nat
  Mask : Nat → Nat

/-- Modelled from the spec: `EncodeFixed32` of `util/coding.h`; the spec states
that multi-byte integers are little-endian. The argument is a `uint32_t`. -/
def EncodeFixed32 (v : Nat) : List Nat :=
  [v % 256, v / 256 % 256, v / 65536 % 256, v / 16777216 % 256]

/-- Modelled from the spec: `EncodeFixed64` of `util/coding.h`, little-endian.
The argument is a `uint64_t`. -/
def EncodeFixed64 (v : Nat) : List Nat :=
  EncodeFixed32 (v % 4294967296) ++ EncodeFixed32 (v / 4294967296)

/-- Modelled from the spec: the reader-side inverse of `EncodeFixed32`
(`DecodeFixed32` of `util/coding.h`), little-endian. -/
def DecodeFixed32 (bs : List Nat) : Nat :=
  bs.getD 0 0 + 256 * bs.getD 1 0 + 65536 * bs.getD 2 0 + 16777216 * bs.getD 3 0

/-- Modelled from the spec: the reader-side inverse of `EncodeFixed64`,
little-endian. -/
def DecodeFixed64 (bs : List Nat) : Nat :=
  DecodeFixed32 (bs.take 4) + 4294967296 * DecodeFixed32 (bs.drop 4)

/-- Result of an operation: `rocksdb::Status`, reduced to success or a failure
carrying a code. -/
inductive Status where
  | ok
  | error (code : Nat)
deriving DecidableEq, Repr

/-- The `Status::ok()` test. -/
def Status.isOk : Status → Bool
  | Status.ok => true
  | Status.error _ => false

/-- What the environment answers to one call on the underlying stream: success,
or a failure with a code; for a failed append `written` is the number of
leading bytes of the data that reached the stream all the same. -/
inductive Reply where
  | ok
  | fail (code : Nat) (written : Nat)
deriving DecidableEq, Repr

/-- The status a reply stands for. -/
def Reply.status : Reply → Status
  | Reply.ok => Status.ok
  | Reply.fail code _ => Status.error code

/-- A call made on the underlying stream. -/
inductive Call where
  | Append (data : List Nat)
  | Flush
  | Sync (force : Bool)
  | Close
deriving DecidableEq, Repr

/-- The underlying sequential file (`WritableFileWriter` of
`util/file_reader_writer.h`), as the writer sees it: `contents` are the bytes
the stream has accepted, `calls` the calls made so far with the status each
returned, `script` the replies the environment gives to the next calls (none
left: success), `closed` whether `Close` was called. -/
structure WritableFileWriter where
  contents : List Nat
  calls : List (Call × Status)
  script : List Reply
  closed : Bool
deriving DecidableEq, Repr

namespace WritableFileWriter

/-- An empty, open file whose future replies are `script`. -/
def fresh (script : List Reply) : WritableFileWriter :=
  { contents := [], calls := [], script := script, closed := false }

/-- The reply to the next call. -/
def nextReply (f : WritableFileWriter) : Reply :=
  f.script.headD Reply.ok

/-- The call `dest_->Append(data)`. -/
def Append (f : WritableFileWriter) (data : List Nat) : Status × WritableFileWriter :=
  match f.nextReply with
  | Reply.ok =>
    (Status.ok, { f with contents := f.contents ++ data,
                         calls := f.calls ++ [(Call.Append data, Status.ok)],
                         script := f.script.tail })
  | Reply.fail code written =>
    (Status.error code, { f with contents := f.contents ++ data.take written,
                                 calls := f.calls ++ [(Call.Append data, Status.error code)],
                                 script := f.script.tail })

/-- The call `dest_->Flush()`. -/
def Flush (f : WritableFileWriter) : Status × WritableFileWriter :=
  (f.nextReply.status, { f with calls := f.calls ++ [(Call.Flush, f.nextReply.status)],
                                script := f.script.tail })

/-- The call `dest_->Sync(force)`. -/
def Sync (f : WritableFileWriter) (force : Bool) : Status × WritableFileWriter :=
  (f.nextReply.status, { f with calls := f.calls ++ [(Call.Sync force, f.nextReply.status)],
                                script := f.script.tail })

/-- The call `dest_->Close()`. -/
def Close (f : WritableFileWriter) : Status × WritableFileWriter :=
  (f.nextReply.status, { f with calls := f.calls ++ [(Call.Close, f.nextReply.status)],
                                script := f.script.tail,
                                closed := true })

end WritableFileWriter

/-! ## The writer -/

/-- The members of `blob_log::Writer`. -/
structure Writer where
  dest_ : Option WritableFileWriter
  log_number_ : Nat
  block_offset_ : Nat
  bytes_per_sync_ : Nat
  next_sync_offset_ : Nat
  use_fsync_ : Bool
  type_crc_ : List Nat
deriving DecidableEq, Repr

/-- The constructor `Writer::Writer(dest, log_number, bpsync, use_fs)`. -/
def Writer.create (x : Externals) (dest : WritableFileWriter) (log_number bpsync : Nat)
    (use_fs : Bool) : Writer :=
  { dest_ := some dest,
    log_number_ := log_number % 2 ^ 64,
    block_offset_ := 0,
    bytes_per_sync_ := bpsync % 2 ^ 64,
    next_sync_offset_ := 0,
    use_fsync_ := use_fs,
    type_crc_ := (List.range (x.kMaxRecordType + 1)).map (fun i => x.Value [i % 256] % 2 ^ 32) }

/-- The method `Writer::WriteHeader`; `str` is the encoding `header.EncodeTo`
produced. -/
def Writer.WriteHeader (w : Writer) (str : List Nat) : Option (Status × Writer) :=
  match w.dest_ with
  | none => none
  | some d =>
    let (s, d) := d.Append str
    if s.isOk then
      let (s, d) := d.Flush
      some (s, { w with dest_ := some d,
                        block_offset_ := (w.block_offset_ + str.length) % 2 ^ 64 })
    else
      some (s, { w with dest_ := some d })

/-- The method `Writer::AppendFooter`; `str` is the encoding `footer.EncodeTo`
produced. The third component of the result is the underlying stream after the
call: on the success path of the append the writer has called `Close` on it and
given it up (`dest_.reset()`), otherwise the writer still holds it. -/
def Writer.AppendFooter (w : Writer) (str : List Nat) :
    Option (Status × Writer × WritableFileWriter) :=
  match w.dest_ with
  | none => none
  | some d =>
    let (s, d) := d.Append str
    if s.isOk then
      let (s, d) := d.Close
      some (s, { w with dest_ := none,
                        block_offset_ := (w.block_offset_ + str.length) % 2 ^ 64 }, d)
    else
      some (s, { w with dest_ := some d }, d)

/-- The store of `bytes` into a buffer at index `off`
(what `EncodeFixed32(buf+off, v)` or `buf[off] = c` does to `buf`). -/
def writeAt (buf : List Nat) (off : Nat) (bytes : List Nat) : List Nat :=
  buf.take off ++ bytes ++ buf.drop (off + bytes.length)

/-- The contents of the array `char buf[kHeaderSize]` right after its
declaration: the code does not initialise it, so it holds whatever bytes
`junk` the stack held. -/
def uninitialized (junk : Nat → Nat) : List Nat :=
  (List.range kHeaderSize).map (fun i => junk i % 256)

/-- Conversion of a 32-bit pattern to `int32_t` (two's complement). -/
def toInt32 (v : Nat) : Int :=
  if v % 2 ^ 32 < 2 ^ 31 then ((v % 2 ^ 32 : Nat) : Int) else ((v % 2 ^ 32 : Nat) : Int) - 2 ^ 32

/-- The header formatting of `Writer::EmitPhysicalRecord` (source lines 90-115):
the bytes of `buf` when it is handed to `Append`. -/
def formatHeader (x : Externals) (junk : Nat → Nat) (t st : Nat) (key val : List Nat)
    (ttl ts : Int) : List Nat :=
  let buf := uninitialized junk
  let buf := writeAt buf 4 (EncodeFixed32 (key.length % 2 ^ 32))
  let buf := writeAt buf 8 (EncodeFixed64 (val.length % 2 ^ 64))
  let buf := if ttl ≠ -1 then writeAt buf 16 (EncodeFixed32 (ttl % 2 ^ 32).toNat) else buf
  let buf := if ts ≠ -1 then writeAt buf 20 (EncodeFixed64 (ts % 2 ^ 64).toNat) else buf
  let buf := writeAt buf 28 [t % 256]
  let buf := writeAt buf 29 [st % 256]
  let crc := 0
  let crc := x.Extend crc val % 2 ^ 32
  let crc := x.Mask crc % 2 ^ 32
  writeAt buf 0 (EncodeFixed32 crc)

/-- What one record operation hands back: the status and the two reference
parameters `key_offset` and `blob_offset`. -/
structure Ret where
  status : Status
  key_offset : Nat
  blob_offset : Nat
deriving DecidableEq, Repr

/-- The method `Writer::EmitPhysicalRecord`. -/
def Writer.EmitPhysicalRecord (x : Externals) (w : Writer) (junk : Nat → Nat) (t st : Nat)
    (key val : List Nat) (ttl ts : Int) : Option (Ret × Writer) :=
  match w.dest_ with
  | none => none
  | some d =>
    let buf := formatHeader x junk t st key val ttl ts
    let (s, d) := d.Append buf
    let (s, d) :=
      if s.isOk then
        let (s, d) := d.Append key
        if s.isOk then
          let (s, d) := d.Append val
          if s.isOk then d.Flush else (s, d)
        else (s, d)
      else (s, d)
    let key_offset := (w.block_offset_ + kHeaderSize) % 2 ^ 64
    let blob_offset := (key_offset + key.length) % 2 ^ 64
    let block_offset := (w.block_offset_ + (kHeaderSize + key.length + val.length)) % 2 ^ 64
    if block_offset > w.next_sync_offset_ then
      let (_, d) := d.Sync true
      some ({ status := s, key_offset := key_offset, blob_offset := blob_offset },
            { w with dest_ := some d, block_offset_ := block_offset,
                     next_sync_offset_ := (w.next_sync_offset_ + w.bytes_per_sync_) % 2 ^ 64 })
    else
      some ({ status := s, key_offset := key_offset, blob_offset := blob_offset },
            { w with dest_ := some d, block_offset_ := block_offset })

/-- Modelled from the spec: the default argument of the parameter `ts` of
`EmitPhysicalRecord`, declared in `db/blob_log_writer.h`; the ttl variant of
`AddRecord` passes no timestamp, which the spec describes as the
"not supplied" sentinel. -/
def kDefaultTs : Int := -1

/-- The method `Writer::AddRecord(key, val, key_offset, blob_offset, ttl)`; `ttl` is a
`uint32_t` that the call converts to the `int32_t` parameter. -/
def Writer.AddRecordTTL (x : Externals) (w : Writer) (junk : Nat → Nat) (key val : List Nat)
    (ttl : Nat) : Option (Ret × Writer) :=
  w.EmitPhysicalRecord x junk x.kFullType x.kTTLType key val (toInt32 ttl) kDefaultTs

/-- The method `Writer::AddRecord(key, val, key_offset, blob_offset)`. -/
def Writer.AddRecord (x : Externals) (w : Writer) (junk : Nat → Nat) (key val : List Nat) :
    Option (Ret × Writer) :=
  w.EmitPhysicalRecord x junk x.kFullType x.kRegularType key val (-1) (-1)

/-! ## Auxiliary definitions used to state the properties -/

/-- The appends and the flush of `EmitPhysicalRecord` (source lines 118-127) as a
function of the stream: the status they leave in `s` and the stream
afterwards. -/
def writeRecord (d : WritableFileWriter) (buf key val : List Nat) :
    Status × WritableFileWriter :=
  if (d.Append buf).1.isOk then
    if ((d.Append buf).2.Append key).1.isOk then
      if (((d.Append buf).2.Append key).2.Append val).1.isOk then
        (((d.Append buf).2.Append key).2.Append val).2.Flush
      else (((d.Append buf).2.Append key).2.Append val)
    else ((d.Append buf).2.Append key)
  else d.Append buf

/-- The value `block_offset_` has after the bookkeeping of
`EmitPhysicalRecord` (source line 131). -/
def advanced (w : Writer) (key val : List Nat) : Nat :=
  (w.block_offset_ + (kHeaderSize + key.length + val.length)) % 2 ^ 64

/-- The test of source line 133, on the advanced `block_offset_`. -/
def syncDue (w : Writer) (key val : List Nat) : Bool :=
  decide (advanced w key val > w.next_sync_offset_)

/-- The bytes of `l` in the range `[off, off + len)`. -/
def slice (l : List Nat) (off len : Nat) : List Nat :=
  (l.drop off).take len

/-- The masked checksum `EmitPhysicalRecord` stores for the value `val`
(source lines 111-114). -/
def storedCrc (x : Externals) (val : List Nat) : Nat :=
  x.Mask (x.Extend 0 val % 2 ^ 32) % 2 ^ 32

/-- One call of the public interface exercised in a run of the writer; `junk` is
what the header buffer of that call held before it was formatted. -/
inductive Op where
  | WriteHeader (str : List Nat)
  | AddRecord (junk : Nat → Nat) (key val : List Nat)
  | AddRecordTTL (junk : Nat → Nat) (key val : List Nat) (ttl : Nat)

/-- The number of bytes a call asks the stream to take. -/
def Op.size : Op → Nat
  | Op.WriteHeader str => str.length
  | Op.AddRecord _ key val => kHeaderSize + key.length + val.length
  | Op.AddRecordTTL _ key val _ => kHeaderSize + key.length + val.length

/-- One call on the writer; `WriteHeader` has no offsets to return, they are
reported as 0. -/
def Writer.step (x : Externals) (w : Writer) : Op → Option (Ret × Writer)
  | Op.WriteHeader str =>
    match w.WriteHeader str with
    | none => none
    | some (s, w1) => some ({ status := s, key_offset := 0, blob_offset := 0 }, w1)
  | Op.AddRecord junk key val => w.AddRecord x junk key val
  | Op.AddRecordTTL junk key val ttl => w.AddRecordTTL x junk key val ttl

/-- A sequence of calls on the writer, with what each returned. -/
def Writer.run (x : Externals) (w : Writer) : List Op → Option (List Ret × Writer)
  | [] => some ([], w)
  | o :: os =>
    match w.step x o with
    | none => none
    | some (r, w1) =>
      match Writer.run x w1 os with
      | none => none
      | some (rs, w2) => some (r :: rs, w2)

/-- Every append recorded in a call log succeeded. -/
def appendsOk (calls : List (Call × Status)) : Prop :=
  ∀ data s, (Call.Append data, s) ∈ calls → s = Status.ok

/-- The number of `Sync` calls in a call log. -/
def syncCount (calls : List (Call × Status)) : Nat :=
  (calls.filter (fun c => match c.1 with
    | Call.Sync _ => true
    | _ => false)).length

/-- The call whose outcome is `res`, made on a writer whose stream was `d`,
returned, and the first thing it did to the stream was to append `h`: `h` is
the record header the call emitted. -/
def emitsHeader (res : Option (Ret × Writer)) (d : WritableFileWriter) (h : List Nat) : Prop :=
  ∃ r w1 d1 s rest, res = some (r, w1) ∧ w1.dest_ = some d1 ∧
    d1.calls = d.calls ++ (Call.Append h, s) :: rest

/-- The call whose outcome is `res`, made on a writer `w` whose stream was `d`,
returned and wrote one whole record for `key` and `val`: a 30-byte header, the
key and the value, as three successful appends in that order, then one
successful flush, then nothing but the forced sync of the schedule (when
due). -/
def wroteRecord (w : Writer) (d : WritableFileWriter) (key val : List Nat)
    (res : Option (Ret × Writer)) : Prop :=
  ∃ r w1 d1 h tail, res = some (r, w1) ∧ w1.dest_ = some d1 ∧ r.status = Status.ok ∧
    h.length = 30 ∧
    d1.contents = d.contents ++ h ++ key ++ val ∧
    d1.calls = d.calls ++ [(Call.Append h, Status.ok), (Call.Append key, Status.ok),
      (Call.Append val, Status.ok), (Call.Flush, Status.ok)] ++ tail ∧
    tail = (if syncDue w key val then [(Call.Sync true, Status.ok)] else [])

/-- The call whose outcome is `res`, made on a writer `w` whose stream was `d`,
returned and followed the sync schedule: the calls it made on the stream are
`pre`, which holds no sync, followed by `tail`; when the advanced
`block_offset_` is greater than the old `next_sync_offset_`, `tail` is one
`Sync(true)` and `next_sync_offset_` grew by `bytes_per_sync_` (in 64 bits);
otherwise `tail` is empty and `next_sync_offset_` is unchanged. -/
def followsSchedule (w : Writer) (d : WritableFileWriter)
    (res : Option (Ret × Writer)) : Prop :=
  ∃ r w1 d1 pre tail, res = some (r, w1) ∧ w1.dest_ = some d1 ∧
    d1.calls = d.calls ++ pre ++ tail ∧ syncCount pre = 0 ∧
    (w1.block_offset_ > w.next_sync_offset_ →
      (∃ s, tail = [(Call.Sync true, s)]) ∧
      w1.next_sync_offset_ = (w.next_sync_offset_ + w.bytes_per_sync_) % 2 ^ 64 ∧
      (w.next_sync_offset_ + w.bytes_per_sync_ < 2 ^ 64 →
        w1.next_sync_offset_ = w.next_sync_offset_ + w.bytes_per_sync_)) ∧
    (¬ w1.block_offset_ > w.next_sync_offset_ →
      tail = [] ∧ w1.next_sync_offset_ = w.next_sync_offset_) ∧
    syncCount d1.calls ≤ syncCount d.calls + 1

/-- The counter agrees with the stream: when every append logged so far
succeeded, `block_offset_` is the length of the file in 64 bits. -/
def inStep (w : Writer) (d : WritableFileWriter) : Prop :=
  w.dest_ = some d ∧ (appendsOk d.calls → w.block_offset_ = d.contents.length % 2 ^ 64)

/-- The outcome `res` of an `AddRecord` call made when the stream was `d1`:
the call returned, and if it returned ok (and the file stays below 2^64
bytes) the stream gained a 30-byte header, the key and the value,
`key_offset` is the file position right after that header, and
`blob_offset` is `key_offset` plus the key length. -/
def offsetsMatchFile (d1 : WritableFileWriter) (key val : List Nat)
    (res : Option (Ret × Writer)) : Prop :=
  ∃ r w2 d2, res = some (r, w2) ∧ w2.dest_ = some d2 ∧
    (r.status = Status.ok → d1.contents.length + 30 + key.length + val.length < 2 ^ 64 →
      (∃ h, h.length = 30 ∧ d2.contents = d1.contents ++ h ++ key ++ val) ∧
      r.key_offset = d1.contents.length + 30 ∧
      r.blob_offset = r.key_offset + key.length)

/-- The writer and its stream agree and the stream will not fail: every reply
still to come is a success and `block_offset_` is the length of the file. -/
def good (w : Writer) (d : WritableFileWriter) : Prop :=
  w.dest_ = some d ∧ (∀ r ∈ d.script, r = Reply.ok) ∧ w.block_offset_ = d.contents.length

/-- The record for `key` and `val` can be read back from the file `contents` at
the offsets `r` reports: the call returned ok, the value and the key are at
`blob_offset` and `key_offset`, and the 32-bit little-endian number stored 30
bytes before `key_offset` is the masked checksum of the value bytes read
back. -/
def recordAt (x : Externals) (contents key val : List Nat) (r : Ret) : Prop :=
  r.status = Status.ok ∧ 30 ≤ r.key_offset ∧
  slice contents r.blob_offset val.length = val ∧
  slice contents r.key_offset key.length = key ∧
  DecodeFixed32 (slice contents (r.key_offset - 30) 4) =
    x.Mask (x.Extend 0 (slice contents r.blob_offset val.length) % 2 ^ 32) % 2 ^ 32

/-- What `recordAt` asks of the result `r` of the call `o`; a `WriteHeader` has
only to have returned ok. -/
def readsBack (x : Externals) (contents : List Nat) (o : Op) (r : Ret) : Prop :=
  match o with
  | Op.WriteHeader _ => r.status = Status.ok
  | Op.AddRecord _ key val => recordAt x contents key val r
  | Op.AddRecordTTL _ key val _ => recordAt x contents key val r

/-- Two successive record calls, the first with outcome `res1` for a value
`val1`, the second, `next`, made on the writer the first left, for a key
`key2`: both return, the offsets of the first are ordered, those of the second
lie strictly beyond them, and the header of the second record starts exactly
where the value of the first ends (`key_offset` of the second is `blob_offset`
of the first plus the value length plus 30). -/
def successive (val1 key2 : List Nat) (res1 : Option (Ret × Writer))
    (next : Writer → Option (Ret × Writer)) : Prop :=
  ∃ r1 w1 r2 w2, res1 = some (r1, w1) ∧ next w1 = some (r2, w2) ∧
    r1.key_offset ≤ r1.blob_offset ∧ r1.blob_offset < r2.key_offset ∧
    r2.key_offset = r1.blob_offset + val1.length + 30 ∧
    r1.key_offset < r2.key_offset ∧ r1.blob_offset < r2.blob_offset ∧
    r2.blob_offset = r2.key_offset + key2.length

/-- The members a call has to leave alone: `log_number_`, `bytes_per_sync_`,
`use_fsync_` and the table `type_crc_` are the same in `w1` as in `w`. -/
def frameKept (w w1 : Writer) : Prop :=
  w1.log_number_ = w.log_number_ ∧ w1.bytes_per_sync_ = w.bytes_per_sync_ ∧
  w1.use_fsync_ = w.use_fsync_ ∧ w1.type_crc_ = w.type_crc_

/-- The calls `main` are the steps append(header `h`), append(key), append(val),
flush, cut after the first one that failed, and `s` is the status of that
failure, or ok when all four were made and succeeded. -/
def cutAtFirstFailure (h key val : List Nat) (main : List (Call × Status)) (s : Status) :
    Prop :=
  (∃ c, s = Status.error c ∧ main = [(Call.Append h, Status.error c)]) ∨
  (∃ c, s = Status.error c ∧
    main = [(Call.Append h, Status.ok), (Call.Append key, Status.error c)]) ∨
  (∃ c, s = Status.error c ∧
    main = [(Call.Append h, Status.ok), (Call.Append key, Status.ok),
      (Call.Append val, Status.error c)]) ∨
  (∃ c, s = Status.error c ∧
    main = [(Call.Append h, Status.ok), (Call.Append key, Status.ok),
      (Call.Append val, Status.ok), (Call.Flush, Status.error c)]) ∨
  (s = Status.ok ∧
    main = [(Call.Append h, Status.ok), (Call.Append key, Status.ok),
      (Call.Append val, Status.ok), (Call.Flush, Status.ok)])

/-- The call whose outcome is `res`, made on a writer `w` whose stream was `d`,
returned the status of the first failing step of append(header), append(key),
append(val), flush (ok if none failed) and made no step after that failure;
the bookkeeping ran all the same: `block_offset_` is advanced and the calls end
with the `Sync(true)` of the schedule exactly when it is due. -/
def stopsAtFirstFailure (w : Writer) (d : WritableFileWriter) (key val : List Nat)
    (res : Option (Ret × Writer)) : Prop :=
  ∃ r w1 d1 h main tail, res = some (r, w1) ∧ w1.dest_ = some d1 ∧
    h.length = 30 ∧ d1.calls = d.calls ++ main ++ tail ∧
    cutAtFirstFailure h key val main r.status ∧
    w1.block_offset_ = advanced w key val ∧
    (syncDue w key val = true → ∃ s, tail = [(Call.Sync true, s)]) ∧
    (syncDue w key val = false → tail = [])

/-- Whether a call is one of the two `AddRecord` variants. -/
def Op.isRecord : Op → Bool
  | Op.WriteHeader _ => false
  | Op.AddRecord _ _ _ => true
  | Op.AddRecordTTL _ _ _ _ => true

/-- The call whose outcome is `res`, made when the stream was `d1`, returned and
forced a sync: the calls it made on the stream end with one `Sync(true)` and
hold no other sync, and it left `next_sync_offset_` at `nso`. -/
def forcesSync (d1 : WritableFileWriter) (res : Option (Ret × Writer)) (nso : Nat) : Prop :=
  ∃ r w2 d2 pre s, res = some (r, w2) ∧ w2.dest_ = some d2 ∧
    d2.calls = d1.calls ++ pre ++ [(Call.Sync true, s)] ∧ syncCount pre = 0 ∧
    w2.next_sync_offset_ = nso

/-- The schedule of a writer with budget `B` whose calls so far asked the
stream to take at most `n` bytes: `bytes_per_sync_` is `B`, `block_offset_` is
at most `n`, `next_sync_offset_` is `B` times the number of syncs made on the
stream, and that product is at most `block_offset_ + B`. -/
def cadence (B n : Nat) (w : Writer) (d : WritableFileWriter) : Prop :=
  w.dest_ = some d ∧ w.bytes_per_sync_ = B ∧ w.block_offset_ ≤ n ∧
  w.next_sync_offset_ = B * syncCount d.calls ∧
  B * syncCount d.calls ≤ w.block_offset_ + B

/-- The sync schedule at one point of a run: on the writer `w0` the calls `pre`
return and leave a writer `w1` on a stream `d1`, the next call `o` returns and
leaves `w2` on `d2`, and, with `k` the number of syncs made on the stream
before `o`:
`next_sync_offset_` is `B * k` before `o` and `B` times the number of syncs
after it; `block_offset_` does not decrease; if `o` is an `AddRecord` it
advances `block_offset_` by the size of the record, it adds one sync exactly
when the resulting `block_offset_` exceeds `k * B` and none exactly when it does
not, and it adds one whenever `block_offset_` was already beyond
`next_sync_offset_` before the call; if `o` is not an `AddRecord` it adds no
sync. -/
def firesOnSchedule (x : Externals) (w0 : Writer) (pre : List Op) (o : Op) (B : Nat) : Prop :=
  ∃ rs w1 d1 r w2 d2, w0.run x pre = some (rs, w1) ∧ w1.dest_ = some d1 ∧
    w1.step x o = some (r, w2) ∧ w2.dest_ = some d2 ∧
    w1.next_sync_offset_ = B * syncCount d1.calls ∧
    w2.next_sync_offset_ = B * syncCount d2.calls ∧
    w1.block_offset_ ≤ w2.block_offset_ ∧
    (o.isRecord = true →
      w2.block_offset_ = w1.block_offset_ + o.size ∧
      (syncCount d2.calls = syncCount d1.calls + 1 ↔
        w2.block_offset_ > B * syncCount d1.calls) ∧
      (syncCount d2.calls = syncCount d1.calls ↔
        ¬ w2.block_offset_ > B * syncCount d1.calls) ∧
      (w1.block_offset_ > w1.next_sync_offset_ →
        syncCount d2.calls = syncCount d1.calls + 1)) ∧
    (o.isRecord = false → syncCount d2.calls = syncCount d1.calls)

/-! ## A concrete instance of the collaborators

Used only to evaluate the model at concrete inputs. It is the CRC-32C
(Castagnoli) checksum with the masking of LevelDB-style logs and the tag values
of upstream RocksDB; none of it is taken from `db/blob_log_writer.cc`, and no
general statement below depends on it. -/

/-- One bit step of the reflected CRC-32C (polynomial `0x82F63B78`). -/
def crcShift (c : Nat) : Nat :=
  if c % 2 = 1 then (c / 2) ^^^ 0x82F63B78 else c / 2

/-- One byte step of CRC-32C. -/
def crcByte (c b : Nat) : Nat :=
  crcShift (crcShift (crcShift (crcShift (crcShift (crcShift (crcShift (crcShift
    (c ^^^ (b % 256)))))))))

/-- The function `crc32c::Extend(init, data, n)` as CRC-32C defines it. -/
def crc32cExtend (init : Nat) (data : List Nat) : Nat :=
  (data.foldl crcByte ((init % 2 ^ 32) ^^^ 0xFFFFFFFF)) ^^^ 0xFFFFFFFF

/-- The masking of a checksum for storage: rotate right by 15 bits and add a
constant, in 32 bits. -/
def crc32cMask (crc : Nat) : Nat :=
  (((crc >>> 15) ||| ((crc <<< 17) % 2 ^ 32)) + 0xa282ead8) % 2 ^ 32

/-- The inverse of `crc32cMask` on 32-bit values. -/
def crc32cUnmask (masked : Nat) : Nat :=
  (((masked + 2 ^ 32 - 0xa282ead8) % 2 ^ 32) >>> 17) |||
    ((((masked + 2 ^ 32 - 0xa282ead8) % 2 ^ 32) <<< 15) % 2 ^ 32)

/-- The concrete collaborators: tags 0 (full), 0 (regular), 1 (ttl), largest
record type 3, CRC-32C and its masking. -/
def sampleExternals : Externals :=
  { kFullType := 0, kRegularType := 0, kTTLType := 1, kMaxRecordType := 3,
    Value := crc32cExtend 0, Extend := crc32cExtend, Mask := crc32cMask }

/-- A header buffer that held the byte `0xAA` everywhere before the call. -/
def junkAA : Nat → Nat := fun _ => 170

/-- A header buffer that held zero bytes before the call. -/
def junk00 : Nat → Nat := fun _ => 0

end BlobLog

namespace Nvmf

/-! ## The NVMf target initialisation (`lib/nvmf/nvmf.c`)

The globals `g_nvmf_tgt`, `g_num_requests` and `request_mempool` are an explicit
state; the two library calls `pthread_mutex_init` and `rte_mempool_create` are
recorded in a log of events, and what they return is given by an environment.
The logging macros are left out. -/

/-- The constant `MAX_SUBSYSTEMS` of `lib/nvmf/nvmf.c`. -/
def MAX_SUBSYSTEMS : Int := 4

/-- The constants `nvmf_tgt_init` takes from headers that are not under `src/`
(`nvmf.h`, `errno.h`), as parameters of the embedding: the two upper limits,
`EINVAL`, and the value of `htons(SPDK_NVMF_DEFAULT_SIN_PORT)`. -/
structure Constants where
  SPDK_NVMF_DEFAULT_MAX_QUEUE_DEPTH : Int
  SPDK_NVMF_DEFAULT_MAX_CONNECTIONS_PER_SESSION : Int
  EINVAL : Int
  default_sin_port : Nat

/-- A call to a library outside the file: `pthread_mutex_init` on
`g_nvmf_tgt.mutex`, or `rte_mempool_create` for a pool of `n` elements. -/
inductive Event where
  | mutex_init
  | mempool_create (n : Nat)
deriving DecidableEq, Repr

/-- What the two library calls return: the return code of `pthread_mutex_init`
and whether `rte_mempool_create` returns a pool (not `NULL`). -/
structure Env where
  mutex_init_rc : Int
  mempool_created : Bool

/-- The globals of the file: the fields of `g_nvmf_tgt` the function touches
(taken to hold an `int` unchanged; the struct is declared in `nvmf.h`),
`g_num_requests`, `request_mempool` (the pool by its number of elements, `none`
for `NULL`), whether the mutex has been initialised, and the log of library
calls. -/
structure State where
  MaxQueueDepth : Int
  MaxConnectionsPerSession : Int
  sin_port : Nat
  mutex_initialized : Bool
  g_num_requests : Nat
  request_mempool : Option Nat
  events : List Event
deriving DecidableEq, Repr

/-- The function `spdk_nvmf_initialize_pools`; `g_num_requests` is an `unsigned`,
so the product is stored modulo 2^32. -/
def spdk_nvmf_initialize_pools (env : Env) (g : State) : Int × State :=
  let g_num_requests :=
    ((MAX_SUBSYSTEMS * g.MaxConnectionsPerSession * g.MaxQueueDepth) % 2 ^ 32).toNat
  let request_mempool := if env.mempool_created then some g_num_requests else none
  let g := { g with g_num_requests := g_num_requests,
                    request_mempool := request_mempool,
                    events := g.events ++ [Event.mempool_create g_num_requests] }
  if request_mempool.isNone then (-1, g) else (0, g)

/-- The function `nvmf_tgt_init(max_queue_depth, max_conn_per_sess)`: the value
it returns and the globals it leaves. -/
def nvmf_tgt_init (c : Constants) (env : Env) (g : State)
    (max_queue_depth max_conn_per_sess : Int) : Int × State :=
  if max_queue_depth ≥ 1 ∧ max_queue_depth ≤ c.SPDK_NVMF_DEFAULT_MAX_QUEUE_DEPTH then
    let g := { g with MaxQueueDepth := max_queue_depth }
    if max_conn_per_sess ≥ 1 ∧
        max_conn_per_sess ≤ c.SPDK_NVMF_DEFAULT_MAX_CONNECTIONS_PER_SESSION then
      let g := { g with MaxConnectionsPerSession := max_conn_per_sess }
      let rc := env.mutex_init_rc
      let g := { g with mutex_initialized := g.mutex_initialized || decide (rc = 0),
                        events := g.events ++ [Event.mutex_init] }
      if rc ≠ 0 then (-1, g)
      else
        let g := if g.sin_port = 0 then { g with sin_port := c.default_sin_port } else g
        let (rc, g) := spdk_nvmf_initialize_pools env g
        if rc ≠ 0 then (rc, g) else (0, g)
    else (-c.EINVAL, g)
  else (-c.EINVAL, g)

/-- Both arguments of `nvmf_tgt_init` are within their limits. -/
def inRange (c : Constants) (max_queue_depth max_conn_per_sess : Int) : Prop :=
  (1 ≤ max_queue_depth ∧ max_queue_depth ≤ c.SPDK_NVMF_DEFAULT_MAX_QUEUE_DEPTH) ∧
  (1 ≤ max_conn_per_sess ∧
    max_conn_per_sess ≤ c.SPDK_NVMF_DEFAULT_MAX_CONNECTIONS_PER_SESSION)

/-- Constants for evaluating the model at concrete inputs: limits 128 and 4,
`EINVAL = 22`, port 4420 in network byte order. They are not taken from
`lib/nvmf/nvmf.c`. -/
def sampleConstants : Constants :=
  { SPDK_NVMF_DEFAULT_MAX_QUEUE_DEPTH := 128,
    SPDK_NVMF_DEFAULT_MAX_CONNECTIONS_PER_SESSION := 4,
    EINVAL := 22,
    default_sin_port := 17425 }

/-- The globals before initialisation: all zero, no pool, no library call
made. -/
def zeroState : State :=
  { MaxQueueDepth := 0, MaxConnectionsPerSession := 0, sin_port := 0,
    mutex_initialized := false, g_num_requests := 0, request_mempool := none, events := [] }

/-- What `nvmf_tgt_init` does, by the range of its arguments and the outcome of
`pthread_mutex_init`: it returns `-EINVAL` exactly when an argument is out of
range, and then makes no library call (no mutex initialised, no pool created);
with both in range it calls `pthread_mutex_init`; if that fails it returns -1
without asking for a pool; if it succeeds it asks `rte_mempool_create` for
exactly `4 * max_conn_per_sess * max_queue_depth` elements and stores that
number in `g_num_requests`. -/
def initContract (c : Constants) (env : Env) (g : State)
    (max_queue_depth max_conn_per_sess : Int) : Prop :=
  ((nvmf_tgt_init c env g max_queue_depth max_conn_per_sess).1 = -c.EINVAL ↔
    ¬ inRange c max_queue_depth max_conn_per_sess) ∧
  (¬ inRange c max_queue_depth max_conn_per_sess →
    (nvmf_tgt_init c env g max_queue_depth max_conn_per_sess).2.events = g.events ∧
    (nvmf_tgt_init c env g max_queue_depth max_conn_per_sess).2.mutex_initialized
      = g.mutex_initialized ∧
    (nvmf_tgt_init c env g max_queue_depth max_conn_per_sess).2.request_mempool
      = g.request_mempool) ∧
  (inRange c max_queue_depth max_conn_per_sess → env.mutex_init_rc = 0 →
    (nvmf_tgt_init c env g max_queue_depth max_conn_per_sess).2.events
      = g.events ++ [Event.mutex_init,
          Event.mempool_create (4 * max_conn_per_sess * max_queue_depth).toNat] ∧
    (nvmf_tgt_init c env g max_queue_depth max_conn_per_sess).2.g_num_requests
      = (4 * max_conn_per_sess * max_queue_depth).toNat) ∧
  (inRange c max_queue_depth max_conn_per_sess → env.mutex_init_rc ≠ 0 →
    (nvmf_tgt_init c env g max_queue_depth max_conn_per_sess).1 = -1 ∧
    (nvmf_tgt_init c env g max_queue_depth max_conn_per_sess).2.events
      = g.events ++ [Event.mutex_init])

end Nvmf

namespace BlobLog

/-! ## Basic facts -/

theorem uninitialized_eq (junk : Nat → Nat) :
    uninitialized junk =
      [junk 0 % 256, junk 1 % 256, junk 2 % 256, junk 3 % 256, junk 4 % 256, junk 5 % 256,
       junk 6 % 256, junk 7 % 256, junk 8 % 256, junk 9 % 256, junk 10 % 256, junk 11 % 256,
       junk 12 % 256, junk 13 % 256, junk 14 % 256, junk 15 % 256, junk 16 % 256,
       junk 17 % 256, junk 18 % 256, junk 19 % 256, junk 20 % 256, junk 21 % 256,
       junk 22 % 256, junk 23 % 256, junk 24 % 256, junk 25 % 256, junk 26 % 256,
       junk 27 % 256, junk 28 % 256, junk 29 % 256] := rfl

theorem emit_eq (x : Externals) (w : Writer) (d : WritableFileWriter) (junk : Nat → Nat)
    (t st : Nat) (key val : List Nat) (ttl ts : Int) (hd : w.dest_ = some d) :
    w.EmitPhysicalRecord x junk t st key val ttl ts =
      some ({ status := (writeRecord d (formatHeader x junk t st key val ttl ts) key val).1,
              key_offset := (w.block_offset_ + kHeaderSize) % 2 ^ 64,
              blob_offset := ((w.block_offset_ + kHeaderSize) % 2 ^ 64 + key.length) % 2 ^ 64 },
            { w with
              dest_ := some (if syncDue w key val then
                  ((writeRecord d (formatHeader x junk t st key val ttl ts) key val).2.Sync true).2
                else (writeRecord d (formatHeader x junk t st key val ttl ts) key val).2),
              block_offset_ := advanced w key val,
              next_sync_offset_ := if syncDue w key val then
                  (w.next_sync_offset_ + w.bytes_per_sync_) % 2 ^ 64
                else w.next_sync_offset_ }) := by
  unfold Writer.EmitPhysicalRecord writeRecord syncDue advanced
  rw [hd]
  simp only []
  split_ifs <;> first | rfl | (simp_all <;> omega)

theorem formatHeader_eq (x : Externals) (junk : Nat → Nat) (t st : Nat) (key val : List Nat)
    (ttl ts : Int) :
    formatHeader x junk t st key val ttl ts =
      EncodeFixed32 (storedCrc x val) ++ EncodeFixed32 (key.length % 2 ^ 32) ++
        EncodeFixed64 (val.length % 2 ^ 64) ++
        (if ttl ≠ -1 then EncodeFixed32 (ttl % 2 ^ 32).toNat
          else slice (uninitialized junk) 16 4) ++
        (if ts ≠ -1 then EncodeFixed64 (ts % 2 ^ 64).toNat
          else slice (uninitialized junk) 20 8) ++
        [t % 256, st % 256] := by
  unfold formatHeader storedCrc
  rw [uninitialized_eq]
  split_ifs <;> simp [writeAt, EncodeFixed32, EncodeFixed64, slice]

theorem length_EncodeFixed32 (v : Nat) : (EncodeFixed32 v).length = 4 := rfl

theorem length_EncodeFixed64 (v : Nat) : (EncodeFixed64 v).length = 8 := rfl

theorem length_formatHeader (x : Externals) (junk : Nat → Nat) (t st : Nat)
    (key val : List Nat) (ttl ts : Int) :
    (formatHeader x junk t st key val ttl ts).length = 30 := by
  rw [formatHeader_eq, uninitialized_eq]
  split_ifs <;> simp [length_EncodeFixed32, length_EncodeFixed64, slice]

theorem DecodeFixed32_EncodeFixed32 (v : Nat) (h : v < 2 ^ 32) :
    DecodeFixed32 (EncodeFixed32 v) = v := by
  simp [DecodeFixed32, EncodeFixed32]
  omega

theorem DecodeFixed64_EncodeFixed64 (v : Nat) (h : v < 2 ^ 64) :
    DecodeFixed64 (EncodeFixed64 v) = v := by
  have h1 : v % 4294967296 < 2 ^ 32 := by omega
  have h2 : v / 4294967296 < 2 ^ 32 := by omega
  have e1 := DecodeFixed32_EncodeFixed32 _ h1
  have e2 := DecodeFixed32_EncodeFixed32 _ h2
  have t4 : (EncodeFixed64 v).take 4 = EncodeFixed32 (v % 4294967296) := rfl
  have d4 : (EncodeFixed64 v).drop 4 = EncodeFixed32 (v / 4294967296) := rfl
  unfold DecodeFixed64
  rw [t4, d4, e1, e2]
  omega

/-! ## The stream operations -/

theorem Append_calls (d : WritableFileWriter) (data : List Nat) :
    (d.Append data).2.calls = d.calls ++ [(Call.Append data, (d.Append data).1)] := by
  unfold WritableFileWriter.Append
  cases d.nextReply <;> rfl

theorem Flush_calls (d : WritableFileWriter) :
    d.Flush.2.calls = d.calls ++ [(Call.Flush, d.Flush.1)] := rfl

theorem Sync_calls (d : WritableFileWriter) (force : Bool) :
    (d.Sync force).2.calls = d.calls ++ [(Call.Sync force, (d.Sync force).1)] := rfl

theorem Sync_contents (d : WritableFileWriter) (force : Bool) :
    (d.Sync force).2.contents = d.contents := rfl

theorem Flush_contents (d : WritableFileWriter) : d.Flush.2.contents = d.contents := rfl

theorem Append_script (d : WritableFileWriter) (data : List Nat) :
    (d.Append data).2.script = d.script.tail := by
  unfold WritableFileWriter.Append
  cases d.nextReply <;> rfl

theorem nextReply_ok (d : WritableFileWriter) (h : ∀ r ∈ d.script, r = Reply.ok) :
    d.nextReply = Reply.ok := by
  unfold WritableFileWriter.nextReply
  cases hs : d.script with
  | nil => rfl
  | cons a l => exact h a (by simp [hs])

theorem Append_ok (d : WritableFileWriter) (data : List Nat)
    (h : ∀ r ∈ d.script, r = Reply.ok) :
    d.Append data = (Status.ok, { d with contents := d.contents ++ data,
                                         calls := d.calls ++ [(Call.Append data, Status.ok)],
                                         script := d.script.tail }) := by
  unfold WritableFileWriter.Append
  rw [nextReply_ok d h]

theorem Flush_ok (d : WritableFileWriter) (h : ∀ r ∈ d.script, r = Reply.ok) :
    d.Flush = (Status.ok, { d with calls := d.calls ++ [(Call.Flush, Status.ok)],
                                   script := d.script.tail }) := by
  unfold WritableFileWriter.Flush
  rw [nextReply_ok d h]
  rfl

theorem Sync_ok (d : WritableFileWriter) (force : Bool) (h : ∀ r ∈ d.script, r = Reply.ok) :
    d.Sync force = (Status.ok, { d with calls := d.calls ++ [(Call.Sync force, Status.ok)],
                                        script := d.script.tail }) := by
  unfold WritableFileWriter.Sync
  rw [nextReply_ok d h]
  rfl

theorem tail_all_ok (l : List Reply) (h : ∀ r ∈ l, r = Reply.ok) :
    ∀ r ∈ l.tail, r = Reply.ok :=
  fun r hr => h r (List.mem_of_mem_tail hr)

theorem writeRecord_ok (d : WritableFileWriter) (buf key val : List Nat)
    (h : ∀ r ∈ d.script, r = Reply.ok) :
    writeRecord d buf key val =
      (Status.ok, { d with
        contents := d.contents ++ buf ++ key ++ val,
        calls := d.calls ++ [(Call.Append buf, Status.ok), (Call.Append key, Status.ok),
          (Call.Append val, Status.ok), (Call.Flush, Status.ok)],
        script := d.script.tail.tail.tail.tail }) := by
  have h1 := tail_all_ok _ h
  have h2 := tail_all_ok _ h1
  have h3 := tail_all_ok _ h2
  unfold writeRecord
  rw [Append_ok d buf h]
  simp only [Status.isOk, if_true]
  rw [Append_ok _ key h1]
  simp only [Status.isOk, if_true]
  rw [Append_ok _ val h2]
  simp only [Status.isOk, if_true]
  rw [Flush_ok _ h3]
  simp

theorem writeRecord_calls (d : WritableFileWriter) (buf key val : List Nat) :
    ∃ s rest, (writeRecord d buf key val).2.calls = d.calls ++ (Call.Append buf, s) :: rest ∧
      syncCount ((Call.Append buf, s) :: rest) = 0 := by
  unfold writeRecord
  split_ifs
  · exact ⟨(d.Append buf).1,
      [(Call.Append key, ((d.Append buf).2.Append key).1),
       (Call.Append val, (((d.Append buf).2.Append key).2.Append val).1),
       (Call.Flush, (((d.Append buf).2.Append key).2.Append val).2.Flush.1)],
      by simp [Flush_calls, Append_calls], by simp [syncCount]⟩
  · exact ⟨(d.Append buf).1,
      [(Call.Append key, ((d.Append buf).2.Append key).1),
       (Call.Append val, (((d.Append buf).2.Append key).2.Append val).1)],
      by simp [Append_calls], by simp [syncCount]⟩
  · exact ⟨(d.Append buf).1, [(Call.Append key, ((d.Append buf).2.Append key).1)],
      by simp [Append_calls], by simp [syncCount]⟩
  · exact ⟨(d.Append buf).1, [], by simp [Append_calls], by simp [syncCount]⟩

theorem emit_emitsHeader (x : Externals) (w : Writer) (d : WritableFileWriter)
    (junk : Nat → Nat) (t st : Nat) (key val : List Nat) (ttl ts : Int)
    (hd : w.dest_ = some d) :
    emitsHeader (w.EmitPhysicalRecord x junk t st key val ttl ts) d
      (formatHeader x junk t st key val ttl ts) := by
  obtain ⟨s, rest, hc, -⟩ :=
    writeRecord_calls d (formatHeader x junk t st key val ttl ts) key val
  refine ⟨_, _, _, s, ?_, emit_eq x w d junk t st key val ttl ts hd, rfl, ?_⟩
  · exact if syncDue w key val then rest ++ [(Call.Sync true,
        ((writeRecord d (formatHeader x junk t st key val ttl ts) key val).2.Sync true).1)]
      else rest
  · by_cases hsd : syncDue w key val = true
    · simp [hsd, Sync_calls, hc]
    · simp [hsd, hc]

/-! ## The record header -/

theorem EncodeFixed32_mod (v : Nat) : EncodeFixed32 (v % 2 ^ 32) = EncodeFixed32 v := by
  simp only [EncodeFixed32, List.cons.injEq, and_true]
  refine ⟨?_, ?_, ?_, ?_⟩ <;> omega

theorem EncodeFixed64_mod (v : Nat) : EncodeFixed64 (v % 2 ^ 64) = EncodeFixed64 v := by
  simp only [EncodeFixed64, EncodeFixed32, List.cons_append, List.nil_append,
    List.cons.injEq, and_true]
  refine ⟨?_, ?_, ?_, ?_, ?_, ?_, ?_, ?_⟩ <;> omega

theorem formatHeader_slices (x : Externals) (junk : Nat → Nat) (t st : Nat)
    (key val : List Nat) (ttl ts : Int) :
    slice (formatHeader x junk t st key val ttl ts) 0 4 = EncodeFixed32 (storedCrc x val) ∧
    slice (formatHeader x junk t st key val ttl ts) 4 4 = EncodeFixed32 (key.length % 2 ^ 32) ∧
    slice (formatHeader x junk t st key val ttl ts) 8 8 = EncodeFixed64 (val.length % 2 ^ 64) ∧
    slice (formatHeader x junk t st key val ttl ts) 16 4 =
      (if ttl ≠ -1 then EncodeFixed32 (ttl % 2 ^ 32).toNat
        else slice (uninitialized junk) 16 4) ∧
    slice (formatHeader x junk t st key val ttl ts) 20 8 =
      (if ts ≠ -1 then EncodeFixed64 (ts % 2 ^ 64).toNat
        else slice (uninitialized junk) 20 8) ∧
    slice (formatHeader x junk t st key val ttl ts) 28 1 = [t % 256] ∧
    slice (formatHeader x junk t st key val ttl ts) 29 1 = [st % 256] := by
  rw [formatHeader_eq, uninitialized_eq]
  split_ifs <;> simp [slice, EncodeFixed32, EncodeFixed64]

theorem toInt32_ne (ttl : Nat) (h : ttl % 2 ^ 32 ≠ 2 ^ 32 - 1) : toInt32 ttl ≠ -1 := by
  unfold toInt32
  split_ifs <;> omega

theorem toInt32_toNat (ttl : Nat) : (toInt32 ttl % 2 ^ 32).toNat = ttl % 2 ^ 32 := by
  unfold toInt32
  split_ifs <;> omega

/-! ## The masking of the concrete instance -/

theorem rotr15_eq (c : Nat) (h : c < 2 ^ 32) :
    (c >>> 15) ||| ((c <<< 17) % 2 ^ 32) = 2 ^ 17 * (c % 2 ^ 15) + c / 2 ^ 15 := by
  have e1 : (c <<< 17) % 2 ^ 32 = 2 ^ 17 * (c % 2 ^ 15) := by
    rw [Nat.shiftLeft_eq]; omega
  have e2 : c >>> 15 = c / 2 ^ 15 := Nat.shiftRight_eq_div_pow c 15
  have hlt : c / 2 ^ 15 < 2 ^ 17 := by omega
  rw [e1, e2, Nat.lor_comm, Nat.mul_add_lt_is_or hlt]

theorem rotl15_eq (r : Nat) (h : r < 2 ^ 32) :
    (r >>> 17) ||| ((r <<< 15) % 2 ^ 32) = 2 ^ 15 * (r % 2 ^ 17) + r / 2 ^ 17 := by
  have e1 : (r <<< 15) % 2 ^ 32 = 2 ^ 15 * (r % 2 ^ 17) := by
    rw [Nat.shiftLeft_eq]; omega
  have e2 : r >>> 17 = r / 2 ^ 17 := Nat.shiftRight_eq_div_pow r 17
  have hlt : r / 2 ^ 17 < 2 ^ 15 := by omega
  rw [e1, e2, Nat.lor_comm, Nat.mul_add_lt_is_or hlt]

theorem crc32cUnmask_Mask (c : Nat) (h : c < 2 ^ 32) :
    crc32cUnmask (crc32cMask c % 2 ^ 32) = c := by
  unfold crc32cUnmask crc32cMask
  rw [rotr15_eq c h]
  have hr : 2 ^ 17 * (c % 2 ^ 15) + c / 2 ^ 15 < 2 ^ 32 := by omega
  have e : ((2 ^ 17 * (c % 2 ^ 15) + c / 2 ^ 15 + 0xa282ead8) % 2 ^ 32 % 2 ^ 32 + 2 ^ 32
      - 0xa282ead8) % 2 ^ 32 = 2 ^ 17 * (c % 2 ^ 15) + c / 2 ^ 15 := by omega
  rw [e, rotl15_eq _ hr]
  omega

/-! ## Offsets returned by `AddRecord` -/

/-- C1: for every writer that holds a stream, every key and value and both
`AddRecord` variants, the call returns `key_offset = block_offset_ + 30` and
`blob_offset = key_offset + key.size()`, both in 64-bit arithmetic, where
`block_offset_` is the value before the call. The stream `d` is arbitrary, so
the replies to the appends and the flush may be successes or failures. -/
theorem C1_offsets_returned (x : Externals) (w : Writer) (d : WritableFileWriter)
    (junk : Nat → Nat) (key val : List Nat) (ttl : Nat) (hd : w.dest_ = some d) :
    (∃ r w1, w.AddRecord x junk key val = some (r, w1) ∧
      r.key_offset = (w.block_offset_ + 30) % 2 ^ 64 ∧
      r.blob_offset = (r.key_offset + key.length) % 2 ^ 64) ∧
    (∃ r w1, w.AddRecordTTL x junk key val ttl = some (r, w1) ∧
      r.key_offset = (w.block_offset_ + 30) % 2 ^ 64 ∧
      r.blob_offset = (r.key_offset + key.length) % 2 ^ 64) :=
  ⟨⟨_, _, emit_eq x w d junk _ _ key val _ _ hd, rfl, rfl⟩,
   ⟨_, _, emit_eq x w d junk _ _ key val _ _ hd, rfl, rfl⟩⟩

/-- C1 at a concrete input: a stream whose first append fails, the key "k1",
the value "v1" and the ttl 3600. -/
theorem C1_offsets_returned_witness :
    (Writer.create sampleExternals (WritableFileWriter.fresh [Reply.fail 5 0]) 7 4096 false).dest_
      = some (WritableFileWriter.fresh [Reply.fail 5 0]) ∧
    ((∃ r w1, (Writer.create sampleExternals (WritableFileWriter.fresh [Reply.fail 5 0]) 7 4096
        false).AddRecord sampleExternals junkAA [107, 49] [118, 49] = some (r, w1) ∧
      r.key_offset = ((Writer.create sampleExternals (WritableFileWriter.fresh [Reply.fail 5 0])
        7 4096 false).block_offset_ + 30) % 2 ^ 64 ∧
      r.blob_offset = (r.key_offset + [107, 49].length) % 2 ^ 64) ∧
    (∃ r w1, (Writer.create sampleExternals (WritableFileWriter.fresh [Reply.fail 5 0]) 7 4096
        false).AddRecordTTL sampleExternals junkAA [107, 49] [118, 49] 3600 = some (r, w1) ∧
      r.key_offset = ((Writer.create sampleExternals (WritableFileWriter.fresh [Reply.fail 5 0])
        7 4096 false).block_offset_ + 30) % 2 ^ 64 ∧
      r.blob_offset = (r.key_offset + [107, 49].length) % 2 ^ 64)) :=
  ⟨rfl, C1_offsets_returned sampleExternals _ _ junkAA [107, 49] [118, 49] 3600 rfl⟩

/-! ## The stored checksum -/

/-- C2: for every key, value, ttl and record variant (and, in
`EmitPhysicalRecord`, every type byte, subtype byte, ttl and timestamp),
bytes 0..3 of the emitted header are the little-endian encoding of
`Mask(Extend(0, value))`, an expression in which neither the key, the sizes,
the ttl nor the type and subtype bytes occur; and any `Unmask` that inverts
`Mask` on 32-bit values recovers from the stored bytes exactly the checksum of
the value bytes. -/
theorem C2_checksum_of_value_only (x : Externals) (w : Writer) (d : WritableFileWriter)
    (junk : Nat → Nat) (key val : List Nat) (ttl t st : Nat) (ttl1 ts : Int)
    (Unmask : Nat → Nat) (hd : w.dest_ = some d)
    (hinv : ∀ c, c < 2 ^ 32 → Unmask (x.Mask c % 2 ^ 32) = c) :
    (∃ h, emitsHeader (w.AddRecord x junk key val) d h ∧
      slice h 0 4 = EncodeFixed32 (x.Mask (x.Extend 0 val % 2 ^ 32) % 2 ^ 32) ∧
      Unmask (DecodeFixed32 (slice h 0 4)) = x.Extend 0 val % 2 ^ 32) ∧
    (∃ h, emitsHeader (w.AddRecordTTL x junk key val ttl) d h ∧
      slice h 0 4 = EncodeFixed32 (x.Mask (x.Extend 0 val % 2 ^ 32) % 2 ^ 32) ∧
      Unmask (DecodeFixed32 (slice h 0 4)) = x.Extend 0 val % 2 ^ 32) ∧
    (∃ h, emitsHeader (w.EmitPhysicalRecord x junk t st key val ttl1 ts) d h ∧
      slice h 0 4 = EncodeFixed32 (x.Mask (x.Extend 0 val % 2 ^ 32) % 2 ^ 32) ∧
      Unmask (DecodeFixed32 (slice h 0 4)) = x.Extend 0 val % 2 ^ 32) := by
  have key_fact : ∀ (t st : Nat) (ttl1 ts : Int),
      ∃ h, emitsHeader (w.EmitPhysicalRecord x junk t st key val ttl1 ts) d h ∧
        slice h 0 4 = EncodeFixed32 (x.Mask (x.Extend 0 val % 2 ^ 32) % 2 ^ 32) ∧
        Unmask (DecodeFixed32 (slice h 0 4)) = x.Extend 0 val % 2 ^ 32 := by
    intro t st ttl1 ts
    have hs := (formatHeader_slices x junk t st key val ttl1 ts).1
    refine ⟨_, emit_emitsHeader x w d junk t st key val ttl1 ts hd, hs, ?_⟩
    rw [hs, storedCrc, DecodeFixed32_EncodeFixed32 _ (Nat.mod_lt _ (by norm_num))]
    exact hinv _ (Nat.mod_lt _ (by norm_num))
  exact ⟨key_fact _ _ _ _, key_fact _ _ _ _, key_fact _ _ _ _⟩

/-- C2 at a concrete input: CRC-32C with its masking and unmasking, the key
"k1", the value "v1", the ttl 3600. -/
theorem C2_checksum_of_value_only_witness :
    (Writer.create sampleExternals (WritableFileWriter.fresh []) 7 4096 false).dest_
      = some (WritableFileWriter.fresh []) ∧
    (∀ c, c < 2 ^ 32 → crc32cUnmask (sampleExternals.Mask c % 2 ^ 32) = c) ∧
    ((∃ h, emitsHeader ((Writer.create sampleExternals (WritableFileWriter.fresh []) 7 4096
        false).AddRecord sampleExternals junkAA [107, 49] [118, 49])
        (WritableFileWriter.fresh []) h ∧
      slice h 0 4 = EncodeFixed32
        (sampleExternals.Mask (sampleExternals.Extend 0 [118, 49] % 2 ^ 32) % 2 ^ 32) ∧
      crc32cUnmask (DecodeFixed32 (slice h 0 4)) = sampleExternals.Extend 0 [118, 49] % 2 ^ 32) ∧
    (∃ h, emitsHeader ((Writer.create sampleExternals (WritableFileWriter.fresh []) 7 4096
        false).AddRecordTTL sampleExternals junkAA [107, 49] [118, 49] 3600)
        (WritableFileWriter.fresh []) h ∧
      slice h 0 4 = EncodeFixed32
        (sampleExternals.Mask (sampleExternals.Extend 0 [118, 49] % 2 ^ 32) % 2 ^ 32) ∧
      crc32cUnmask (DecodeFixed32 (slice h 0 4)) = sampleExternals.Extend 0 [118, 49] % 2 ^ 32) ∧
    (∃ h, emitsHeader ((Writer.create sampleExternals (WritableFileWriter.fresh []) 7 4096
        false).EmitPhysicalRecord sampleExternals junkAA 3 2 [107, 49] [118, 49] 17 99)
        (WritableFileWriter.fresh []) h ∧
      slice h 0 4 = EncodeFixed32
        (sampleExternals.Mask (sampleExternals.Extend 0 [118, 49] % 2 ^ 32) % 2 ^ 32) ∧
      crc32cUnmask (DecodeFixed32 (slice h 0 4)) =
        sampleExternals.Extend 0 [118, 49] % 2 ^ 32)) :=
  ⟨rfl, crc32cUnmask_Mask,
    C2_checksum_of_value_only sampleExternals _ _ junkAA [107, 49] [118, 49] 3600 3 2 17 99
      crc32cUnmask rfl crc32cUnmask_Mask⟩

/-! ## The header layout -/

/-- C3: for every key shorter than 2^32 bytes and every value, the header either
`AddRecord` variant emits has exactly 30 bytes; bytes 4..7 are the
little-endian 32-bit key length, bytes 8..15 the little-endian 64-bit value
length, byte 28 the "full record" type, and byte 29 the "regular" subtype for
`AddRecord(key, value)` and the "ttl-bearing" subtype for
`AddRecord(key, value, ttl)`. -/
theorem C3_header_layout (x : Externals) (w : Writer) (d : WritableFileWriter)
    (junk : Nat → Nat) (key val : List Nat) (ttl : Nat) (hd : w.dest_ = some d)
    (hk : key.length < 2 ^ 32) :
    (∃ h, emitsHeader (w.AddRecord x junk key val) d h ∧ h.length = 30 ∧
      slice h 4 4 = EncodeFixed32 key.length ∧ DecodeFixed32 (slice h 4 4) = key.length ∧
      slice h 8 8 = EncodeFixed64 val.length ∧
      DecodeFixed64 (slice h 8 8) = val.length % 2 ^ 64 ∧
      slice h 28 1 = [x.kFullType % 256] ∧ slice h 29 1 = [x.kRegularType % 256]) ∧
    (∃ h, emitsHeader (w.AddRecordTTL x junk key val ttl) d h ∧ h.length = 30 ∧
      slice h 4 4 = EncodeFixed32 key.length ∧ DecodeFixed32 (slice h 4 4) = key.length ∧
      slice h 8 8 = EncodeFixed64 val.length ∧
      DecodeFixed64 (slice h 8 8) = val.length % 2 ^ 64 ∧
      slice h 28 1 = [x.kFullType % 256] ∧ slice h 29 1 = [x.kTTLType % 256]) := by
  have key_fact : ∀ (st : Nat) (ttl1 ts : Int),
      ∃ h, emitsHeader (w.EmitPhysicalRecord x junk x.kFullType st key val ttl1 ts) d h ∧
        h.length = 30 ∧
        slice h 4 4 = EncodeFixed32 key.length ∧ DecodeFixed32 (slice h 4 4) = key.length ∧
        slice h 8 8 = EncodeFixed64 val.length ∧
        DecodeFixed64 (slice h 8 8) = val.length % 2 ^ 64 ∧
        slice h 28 1 = [x.kFullType % 256] ∧ slice h 29 1 = [st % 256] := by
    intro st ttl1 ts
    obtain ⟨-, h4, h8, -, -, h28, h29⟩ :=
      formatHeader_slices x junk x.kFullType st key val ttl1 ts
    refine ⟨_, emit_emitsHeader x w d junk _ st key val ttl1 ts hd,
      length_formatHeader _ _ _ _ _ _ _ _, ?_, ?_, ?_, ?_, h28, h29⟩
    · rw [h4, EncodeFixed32_mod]
    · rw [h4, EncodeFixed32_mod, DecodeFixed32_EncodeFixed32 _ hk]
    · rw [h8, EncodeFixed64_mod]
    · rw [h8, DecodeFixed64_EncodeFixed64 _ (Nat.mod_lt _ (by norm_num))]
  exact ⟨key_fact _ _ _, key_fact _ _ _⟩

/-- C3 at a concrete input: the key "k1", the value "v1", the ttl 3600. -/
theorem C3_header_layout_witness :
    (Writer.create sampleExternals (WritableFileWriter.fresh []) 7 4096 false).dest_
      = some (WritableFileWriter.fresh []) ∧
    [107, 49].length < 2 ^ 32 ∧
    ((∃ h, emitsHeader ((Writer.create sampleExternals (WritableFileWriter.fresh []) 7 4096
        false).AddRecord sampleExternals junkAA [107, 49] [118, 49])
        (WritableFileWriter.fresh []) h ∧ h.length = 30 ∧
      slice h 4 4 = EncodeFixed32 [107, 49].length ∧
      DecodeFixed32 (slice h 4 4) = [107, 49].length ∧
      slice h 8 8 = EncodeFixed64 [118, 49].length ∧
      DecodeFixed64 (slice h 8 8) = [118, 49].length % 2 ^ 64 ∧
      slice h 28 1 = [sampleExternals.kFullType % 256] ∧
      slice h 29 1 = [sampleExternals.kRegularType % 256]) ∧
    (∃ h, emitsHeader ((Writer.create sampleExternals (WritableFileWriter.fresh []) 7 4096
        false).AddRecordTTL sampleExternals junkAA [107, 49] [118, 49] 3600)
        (WritableFileWriter.fresh []) h ∧ h.length = 30 ∧
      slice h 4 4 = EncodeFixed32 [107, 49].length ∧
      DecodeFixed32 (slice h 4 4) = [107, 49].length ∧
      slice h 8 8 = EncodeFixed64 [118, 49].length ∧
      DecodeFixed64 (slice h 8 8) = [118, 49].length % 2 ^ 64 ∧
      slice h 28 1 = [sampleExternals.kFullType % 256] ∧
      slice h 29 1 = [sampleExternals.kTTLType % 256])) :=
  ⟨rfl, by decide,
    C3_header_layout sampleExternals _ _ junkAA [107, 49] [118, 49] 3600 rfl (by decide)⟩

/-! ## What one successful `AddRecord` does to the stream -/

theorem emit_wroteRecord (x : Externals) (w : Writer) (d : WritableFileWriter)
    (junk : Nat → Nat) (t st : Nat) (key val : List Nat) (ttl ts : Int)
    (hd : w.dest_ = some d) (hok : ∀ r ∈ d.script, r = Reply.ok) :
    wroteRecord w d key val (w.EmitPhysicalRecord x junk t st key val ttl ts) := by
  have hw := writeRecord_ok d (formatHeader x junk t st key val ttl ts) key val hok
  have h4 : ∀ r ∈ d.script.tail.tail.tail.tail, r = Reply.ok :=
    tail_all_ok _ (tail_all_ok _ (tail_all_ok _ (tail_all_ok _ hok)))
  refine ⟨_, _, _, formatHeader x junk t st key val ttl ts, _,
    emit_eq x w d junk t st key val ttl ts hd, rfl, ?_, length_formatHeader _ _ _ _ _ _ _ _,
    ?_, ?_, rfl⟩
  · simp [hw]
  · by_cases hsd : syncDue w key val = true
    · simp [hsd, hw, Sync_contents]
    · simp [hsd, hw]
  · by_cases hsd : syncDue w key val = true
    · simp only [hsd, if_true, hw]
      rw [Sync_ok _ _ h4]
    · simp [hsd, hw]

/-- C4: for every `AddRecord` call (either variant) in which all replies of the
underlying stream are successes, the call returns ok, the bytes the stream
gained are exactly header (30 bytes) ++ key ++ value, and the calls made on the
stream are the three appends header, key, value in that order, then one flush,
then only the forced sync of the schedule when it is due. -/
theorem C4_three_appends_then_flush (x : Externals) (w : Writer) (d : WritableFileWriter)
    (junk : Nat → Nat) (key val : List Nat) (ttl : Nat) (hd : w.dest_ = some d)
    (hok : ∀ r ∈ d.script, r = Reply.ok) :
    wroteRecord w d key val (w.AddRecord x junk key val) ∧
    wroteRecord w d key val (w.AddRecordTTL x junk key val ttl) :=
  ⟨emit_wroteRecord x w d junk _ _ key val _ _ hd hok,
   emit_wroteRecord x w d junk _ _ key val _ _ hd hok⟩

/-- C4 at a concrete input: a fresh stream whose four first replies are
successes, the key "k1", the value "v1", the ttl 3600. -/
theorem C4_three_appends_then_flush_witness :
    (Writer.create sampleExternals
        (WritableFileWriter.fresh [Reply.ok, Reply.ok, Reply.ok, Reply.ok]) 7 4096 false).dest_
      = some (WritableFileWriter.fresh [Reply.ok, Reply.ok, Reply.ok, Reply.ok]) ∧
    (∀ r ∈ (WritableFileWriter.fresh [Reply.ok, Reply.ok, Reply.ok, Reply.ok]).script,
      r = Reply.ok) ∧
    wroteRecord
      (Writer.create sampleExternals
        (WritableFileWriter.fresh [Reply.ok, Reply.ok, Reply.ok, Reply.ok]) 7 4096 false)
      (WritableFileWriter.fresh [Reply.ok, Reply.ok, Reply.ok, Reply.ok]) [107, 49] [118, 49]
      ((Writer.create sampleExternals
        (WritableFileWriter.fresh [Reply.ok, Reply.ok, Reply.ok, Reply.ok]) 7 4096
        false).AddRecord sampleExternals junkAA [107, 49] [118, 49]) ∧
    wroteRecord
      (Writer.create sampleExternals
        (WritableFileWriter.fresh [Reply.ok, Reply.ok, Reply.ok, Reply.ok]) 7 4096 false)
      (WritableFileWriter.fresh [Reply.ok, Reply.ok, Reply.ok, Reply.ok]) [107, 49] [118, 49]
      ((Writer.create sampleExternals
        (WritableFileWriter.fresh [Reply.ok, Reply.ok, Reply.ok, Reply.ok]) 7 4096
        false).AddRecordTTL sampleExternals junkAA [107, 49] [118, 49] 3600) :=
  ⟨rfl, by decide,
    C4_three_appends_then_flush sampleExternals _ _ junkAA [107, 49] [118, 49] 3600 rfl
      (by decide)⟩

/-! ## The byte counter and the sync schedule -/

/-- C7: for every writer that holds a stream, every key and value and both
`AddRecord` variants, the call sets `block_offset_` to
`(old block_offset_ + 30 + key.size() + val.size()) mod 2^64`. The stream `d`
is arbitrary: the replies to the appends and the flush may be failures, and
the counter advances all the same. -/
theorem C7_block_offset_advances (x : Externals) (w : Writer) (d : WritableFileWriter)
    (junk : Nat → Nat) (key val : List Nat) (ttl : Nat) (hd : w.dest_ = some d) :
    (∃ r w1, w.AddRecord x junk key val = some (r, w1) ∧
      w1.block_offset_ = (w.block_offset_ + 30 + key.length + val.length) % 2 ^ 64) ∧
    (∃ r w1, w.AddRecordTTL x junk key val ttl = some (r, w1) ∧
      w1.block_offset_ = (w.block_offset_ + 30 + key.length + val.length) % 2 ^ 64) := by
  have e : advanced w key val = (w.block_offset_ + 30 + key.length + val.length) % 2 ^ 64 := by
    unfold advanced kHeaderSize
    congr 1
    omega
  exact ⟨⟨_, _, emit_eq x w d junk _ _ key val _ _ hd, e⟩,
         ⟨_, _, emit_eq x w d junk _ _ key val _ _ hd, e⟩⟩

/-- C7 at a concrete input: a stream on which the header append and whatever
follows fail, the key "k1", the value "v1", the ttl 3600. -/
theorem C7_block_offset_advances_witness :
    (Writer.create sampleExternals (WritableFileWriter.fresh [Reply.fail 5 0, Reply.fail 6 0])
      7 4096 false).dest_ = some (WritableFileWriter.fresh [Reply.fail 5 0, Reply.fail 6 0]) ∧
    ((∃ r w1, (Writer.create sampleExternals
        (WritableFileWriter.fresh [Reply.fail 5 0, Reply.fail 6 0]) 7 4096 false).AddRecord
        sampleExternals junkAA [107, 49] [118, 49] = some (r, w1) ∧
      w1.block_offset_ = ((Writer.create sampleExternals
        (WritableFileWriter.fresh [Reply.fail 5 0, Reply.fail 6 0]) 7 4096 false).block_offset_
          + 30 + [107, 49].length + [118, 49].length) % 2 ^ 64) ∧
    (∃ r w1, (Writer.create sampleExternals
        (WritableFileWriter.fresh [Reply.fail 5 0, Reply.fail 6 0]) 7 4096 false).AddRecordTTL
        sampleExternals junkAA [107, 49] [118, 49] 3600 = some (r, w1) ∧
      w1.block_offset_ = ((Writer.create sampleExternals
        (WritableFileWriter.fresh [Reply.fail 5 0, Reply.fail 6 0]) 7 4096 false).block_offset_
          + 30 + [107, 49].length + [118, 49].length) % 2 ^ 64)) :=
  ⟨rfl, C7_block_offset_advances sampleExternals _ _ junkAA [107, 49] [118, 49] 3600 rfl⟩

theorem syncCount_append (a b : List (Call × Status)) :
    syncCount (a ++ b) = syncCount a + syncCount b := by
  simp [syncCount, List.filter_append]

theorem emit_followsSchedule (x : Externals) (w : Writer) (d : WritableFileWriter)
    (junk : Nat → Nat) (t st : Nat) (key val : List Nat) (ttl ts : Int)
    (hd : w.dest_ = some d) :
    followsSchedule w d (w.EmitPhysicalRecord x junk t st key val ttl ts) := by
  obtain ⟨s, rest, hc, hn⟩ :=
    writeRecord_calls d (formatHeader x junk t st key val ttl ts) key val
  by_cases hsd : syncDue w key val = true
  · have hgt : advanced w key val > w.next_sync_offset_ := by
      simpa [syncDue] using hsd
    refine ⟨_, _, _, (Call.Append _, s) :: rest,
      [(Call.Sync true,
        ((writeRecord d (formatHeader x junk t st key val ttl ts) key val).2.Sync true).1)],
      emit_eq x w d junk t st key val ttl ts hd, rfl, ?_, hn, ?_, ?_, ?_⟩
    · simp [hsd, Sync_calls, hc]
    · intro _
      refine ⟨⟨_, rfl⟩, by simp [hsd], ?_⟩
      intro hlt
      simp only [hsd, if_true]
      exact Nat.mod_eq_of_lt hlt
    · intro hng
      exact absurd hgt hng
    · simp only [hsd, if_true, Sync_calls, hc]
      rw [syncCount_append, syncCount_append, hn]
      simp [syncCount]
  · have hng : ¬ advanced w key val > w.next_sync_offset_ := by
      simpa [syncDue] using hsd
    refine ⟨_, _, _, (Call.Append _, s) :: rest, [],
      emit_eq x w d junk t st key val ttl ts hd, rfl, ?_, hn, ?_, ?_, ?_⟩
    · simp [hsd, hc]
    · intro hgt
      exact absurd hgt hng
    · intro _
      exact ⟨rfl, by simp [hsd]⟩
    · have hf : syncDue w key val = false := by simpa using hsd
      simp only [hf, Bool.false_eq_true, if_false, hc]
      rw [syncCount_append, hn]
      simp

/-- C10: for every `AddRecord` call (either variant, any replies of the
stream), the calls made on the stream are a part without any sync followed by
one `Sync(true)` exactly when the new `block_offset_` is strictly greater than
the old `next_sync_offset_`; in that case `next_sync_offset_` becomes
`next_sync_offset_ + bytes_per_sync_` (in 64 bits), not
`block_offset_ + bytes_per_sync_`, and otherwise it is unchanged; the call adds
at most one sync to the log. -/
theorem C10_sync_iff_past_threshold (x : Externals) (w : Writer) (d : WritableFileWriter)
    (junk : Nat → Nat) (key val : List Nat) (ttl : Nat) (hd : w.dest_ = some d) :
    followsSchedule w d (w.AddRecord x junk key val) ∧
    followsSchedule w d (w.AddRecordTTL x junk key val ttl) :=
  ⟨emit_followsSchedule x w d junk _ _ key val _ _ hd,
   emit_followsSchedule x w d junk _ _ key val _ _ hd⟩

/-- C10 at a concrete input: a writer with `bytes_per_sync_ = 4096` on a fresh
stream whose header append fails, the key "k1", the value "v1", the ttl 3600. -/
theorem C10_sync_iff_past_threshold_witness :
    (Writer.create sampleExternals (WritableFileWriter.fresh [Reply.fail 5 0]) 7 4096 false).dest_
      = some (WritableFileWriter.fresh [Reply.fail 5 0]) ∧
    followsSchedule
      (Writer.create sampleExternals (WritableFileWriter.fresh [Reply.fail 5 0]) 7 4096 false)
      (WritableFileWriter.fresh [Reply.fail 5 0])
      ((Writer.create sampleExternals (WritableFileWriter.fresh [Reply.fail 5 0]) 7 4096
        false).AddRecord sampleExternals junkAA [107, 49] [118, 49]) ∧
    followsSchedule
      (Writer.create sampleExternals (WritableFileWriter.fresh [Reply.fail 5 0]) 7 4096 false)
      (WritableFileWriter.fresh [Reply.fail 5 0])
      ((Writer.create sampleExternals (WritableFileWriter.fresh [Reply.fail 5 0]) 7 4096
        false).AddRecordTTL sampleExternals junkAA [107, 49] [118, 49] 3600) :=
  ⟨rfl, C10_sync_iff_past_threshold sampleExternals _ _ junkAA [107, 49] [118, 49] 3600 rfl⟩

/-! ## The ttl and timestamp slots of the header -/

theorem AddRecordTTL_ttl_field (x : Externals) (w : Writer) (d : WritableFileWriter)
    (junk : Nat → Nat) (key val : List Nat) (ttl : Nat) (hd : w.dest_ = some d)
    (hne : ttl % 2 ^ 32 ≠ 2 ^ 32 - 1) :
    ∃ h, emitsHeader (w.AddRecordTTL x junk key val ttl) d h ∧
      slice h 29 1 = [x.kTTLType % 256] ∧ slice h 16 4 = EncodeFixed32 (ttl % 2 ^ 32) := by
  obtain ⟨-, -, -, h16, -, -, h29⟩ :=
    formatHeader_slices x junk x.kFullType x.kTTLType key val (toInt32 ttl) kDefaultTs
  refine ⟨_, emit_emitsHeader x w d junk _ _ key val _ _ hd, h29, ?_⟩
  rw [h16, if_pos (toInt32_ne ttl hne), toInt32_toNat]

theorem reserved_slots_hold_junk (x : Externals) (w : Writer) (d : WritableFileWriter)
    (junk : Nat → Nat) (key val : List Nat) (ttl : Nat) (hd : w.dest_ = some d) :
    (∃ h, emitsHeader (w.AddRecord x junk key val) d h ∧
      slice h 16 4 = slice (uninitialized junk) 16 4 ∧
      slice h 20 8 = slice (uninitialized junk) 20 8) ∧
    (∃ h, emitsHeader (w.AddRecordTTL x junk key val ttl) d h ∧
      slice h 20 8 = slice (uninitialized junk) 20 8) := by
  constructor
  · obtain ⟨-, -, -, h16, h20, -, -⟩ :=
      formatHeader_slices x junk x.kFullType x.kRegularType key val (-1) (-1)
    exact ⟨_, emit_emitsHeader x w d junk _ _ key val _ _ hd, by simpa using h16,
      by simpa using h20⟩
  · obtain ⟨-, -, -, -, h20, -, -⟩ :=
      formatHeader_slices x junk x.kFullType x.kTTLType key val (toInt32 ttl) kDefaultTs
    exact ⟨_, emit_emitsHeader x w d junk _ _ key val _ _ hd, by simpa [kDefaultTs] using h20⟩

/-- C8, evaluated at the failing input ttl = 2^32 - 1 (key "k2", value "v2", a
header buffer that held `0xAA` bytes): the record carries the "ttl-bearing"
subtype, yet bytes 16..19 of the emitted header are the four `0xAA` bytes the
buffer held, not the little-endian encoding `FF FF FF FF` of the ttl. -/
theorem C8_ttl_max_not_encoded :
    ∃ h, emitsHeader ((Writer.create sampleExternals (WritableFileWriter.fresh []) 7 4096
        false).AddRecordTTL sampleExternals junkAA [107, 50] [118, 50] 4294967295)
        (WritableFileWriter.fresh []) h ∧
      slice h 29 1 = [sampleExternals.kTTLType % 256] ∧
      slice h 16 4 = [170, 170, 170, 170] ∧
      EncodeFixed32 4294967295 = [255, 255, 255, 255] ∧
      slice h 16 4 ≠ EncodeFixed32 4294967295 := by
  obtain ⟨-, -, -, h16, -, -, h29⟩ :=
    formatHeader_slices sampleExternals junkAA sampleExternals.kFullType
      sampleExternals.kTTLType [107, 50] [118, 50] (toInt32 4294967295) kDefaultTs
  have e : toInt32 4294967295 = -1 := by decide
  have h16a : slice (formatHeader sampleExternals junkAA sampleExternals.kFullType
      sampleExternals.kTTLType [107, 50] [118, 50] (toInt32 4294967295) kDefaultTs) 16 4
      = [170, 170, 170, 170] := by
    rw [h16, e]
    decide
  refine ⟨_, emit_emitsHeader sampleExternals _ _ junkAA _ _ [107, 50] [118, 50] _ _ rfl,
    h29, h16a, by decide, ?_⟩
  rw [h16a]
  decide

/-- C9, evaluated at a failing input (key "k1", value "v1", a header buffer
that held `0xAA` bytes): `AddRecord(key, value)` emits `0xAA` bytes in the ttl
slot (bytes 16..19) and in the timestamp slot (bytes 20..27),
`AddRecord(key, value, 3600)` emits `0xAA` bytes in the timestamp slot, and the
same `AddRecord(key, value)` on a buffer that held zero bytes emits a different
header: the header is not a function of key length, value, ttl and variant. -/
theorem C9_reserved_bytes_not_zeroed :
    (∃ h, emitsHeader ((Writer.create sampleExternals (WritableFileWriter.fresh []) 7 4096
        false).AddRecord sampleExternals junkAA [107, 49] [118, 49])
        (WritableFileWriter.fresh []) h ∧
      slice h 16 4 = [170, 170, 170, 170] ∧
      slice h 20 8 = [170, 170, 170, 170, 170, 170, 170, 170]) ∧
    (∃ h, emitsHeader ((Writer.create sampleExternals (WritableFileWriter.fresh []) 7 4096
        false).AddRecordTTL sampleExternals junkAA [107, 49] [118, 49] 3600)
        (WritableFileWriter.fresh []) h ∧
      slice h 20 8 = [170, 170, 170, 170, 170, 170, 170, 170]) ∧
    (∃ h1 h2, emitsHeader ((Writer.create sampleExternals (WritableFileWriter.fresh []) 7 4096
        false).AddRecord sampleExternals junkAA [107, 49] [118, 49])
        (WritableFileWriter.fresh []) h1 ∧
      emitsHeader ((Writer.create sampleExternals (WritableFileWriter.fresh []) 7 4096
        false).AddRecord sampleExternals junk00 [107, 49] [118, 49])
        (WritableFileWriter.fresh []) h2 ∧
      slice h2 16 4 = [0, 0, 0, 0] ∧ h1 ≠ h2) := by
  obtain ⟨-, -, -, a16, a20, -, -⟩ :=
    formatHeader_slices sampleExternals junkAA sampleExternals.kFullType
      sampleExternals.kRegularType [107, 49] [118, 49] (-1) (-1)
  obtain ⟨-, -, -, -, b20, -, -⟩ :=
    formatHeader_slices sampleExternals junkAA sampleExternals.kFullType
      sampleExternals.kTTLType [107, 49] [118, 49] (toInt32 3600) kDefaultTs
  obtain ⟨-, -, -, c16, -, -, -⟩ :=
    formatHeader_slices sampleExternals junk00 sampleExternals.kFullType
      sampleExternals.kRegularType [107, 49] [118, 49] (-1) (-1)
  have a16a : slice (formatHeader sampleExternals junkAA sampleExternals.kFullType
      sampleExternals.kRegularType [107, 49] [118, 49] (-1) (-1)) 16 4
      = [170, 170, 170, 170] := by
    rw [a16]
    decide
  have c16a : slice (formatHeader sampleExternals junk00 sampleExternals.kFullType
      sampleExternals.kRegularType [107, 49] [118, 49] (-1) (-1)) 16 4 = [0, 0, 0, 0] := by
    rw [c16]
    decide
  refine ⟨⟨_, emit_emitsHeader sampleExternals _ _ junkAA _ _ [107, 49] [118, 49] _ _ rfl,
      a16a, ?_⟩,
    ⟨_, emit_emitsHeader sampleExternals _ _ junkAA _ _ [107, 49] [118, 49] _ _ rfl, ?_⟩,
    ⟨_, _, emit_emitsHeader sampleExternals _ _ junkAA _ _ [107, 49] [118, 49] _ _ rfl,
      emit_emitsHeader sampleExternals _ _ junk00 _ _ [107, 49] [118, 49] _ _ rfl, c16a, ?_⟩⟩
  · rw [a20]
    decide
  · rw [b20]
    decide
  · intro heq
    have h := a16a
    rw [heq, c16a] at h
    exact absurd h (by decide)

/-! ## The counter against the file position -/

theorem appendsOk_append (a b : List (Call × Status)) :
    appendsOk (a ++ b) ↔ appendsOk a ∧ appendsOk b := by
  unfold appendsOk
  constructor
  · intro h
    exact ⟨fun data s hm => h data s (List.mem_append.mpr (Or.inl hm)),
           fun data s hm => h data s (List.mem_append.mpr (Or.inr hm))⟩
  · rintro ⟨ha, hb⟩ data s hm
    rcases List.mem_append.mp hm with hm | hm
    · exact ha data s hm
    · exact hb data s hm

theorem Append_contents_of_isOk (d : WritableFileWriter) (data : List Nat)
    (h : (d.Append data).1.isOk = true) :
    (d.Append data).2.contents = d.contents ++ data := by
  unfold WritableFileWriter.Append at h ⊢
  cases hr : d.nextReply with
  | ok => rfl
  | fail code written => simp [hr, Status.isOk] at h

theorem appendsOk_Append (d : WritableFileWriter) (data : List Nat)
    (h : appendsOk (d.Append data).2.calls) :
    appendsOk d.calls ∧ (d.Append data).1.isOk = true := by
  rw [Append_calls, appendsOk_append] at h
  refine ⟨h.1, ?_⟩
  have := h.2 data (d.Append data).1 (by simp)
  rw [this]
  rfl

theorem appendsOk_Flush (d : WritableFileWriter) (h : appendsOk d.Flush.2.calls) :
    appendsOk d.calls := by
  rw [Flush_calls, appendsOk_append] at h
  exact h.1

theorem appendsOk_Sync (d : WritableFileWriter) (force : Bool)
    (h : appendsOk (d.Sync force).2.calls) : appendsOk d.calls := by
  rw [Sync_calls, appendsOk_append] at h
  exact h.1

theorem writeRecord_of_appendsOk (d : WritableFileWriter) (buf key val : List Nat)
    (h : appendsOk (writeRecord d buf key val).2.calls) :
    appendsOk d.calls ∧
      (writeRecord d buf key val).2.contents = d.contents ++ buf ++ key ++ val := by
  unfold writeRecord at h ⊢
  split_ifs at h ⊢ with h1 h2 h3
  · have a3 := appendsOk_Append _ _ (appendsOk_Flush _ h)
    have a2 := appendsOk_Append _ _ a3.1
    have a1 := appendsOk_Append _ _ a2.1
    refine ⟨a1.1, ?_⟩
    rw [Flush_contents, Append_contents_of_isOk _ _ h3, Append_contents_of_isOk _ _ h2,
      Append_contents_of_isOk _ _ h1]
  · exact absurd (appendsOk_Append _ _ h).2 h3
  · exact absurd (appendsOk_Append _ _ h).2 h2
  · exact absurd (appendsOk_Append _ _ h).2 h1

theorem emit_inStep (x : Externals) (w : Writer) (d : WritableFileWriter)
    (junk : Nat → Nat) (t st : Nat) (key val : List Nat) (ttl ts : Int)
    (hin : inStep w d) :
    ∃ r w1 d1, w.EmitPhysicalRecord x junk t st key val ttl ts = some (r, w1) ∧
      inStep w1 d1 := by
  refine ⟨_, _, _, emit_eq x w d junk t st key val ttl ts hin.1, rfl, ?_⟩
  intro happ
  have hwr : appendsOk
      (writeRecord d (formatHeader x junk t st key val ttl ts) key val).2.calls := by
    by_cases hsd : syncDue w key val = true
    · simp only [hsd, if_true] at happ
      exact appendsOk_Sync _ _ happ
    · have hf : syncDue w key val = false := by simpa using hsd
      simpa [hf] using happ
  obtain ⟨hd0, hc⟩ := writeRecord_of_appendsOk _ _ _ _ hwr
  have hb := hin.2 hd0
  have hlen : (if syncDue w key val then
        ((writeRecord d (formatHeader x junk t st key val ttl ts) key val).2.Sync true).2
      else (writeRecord d (formatHeader x junk t st key val ttl ts) key val).2).contents.length
      = d.contents.length + 30 + key.length + val.length := by
    by_cases hsd : syncDue w key val = true
    · simp [hsd, Sync_contents, hc, length_formatHeader]
      omega
    · have hf : syncDue w key val = false := by simpa using hsd
      simp [hf, hc, length_formatHeader]
      omega
  show advanced w key val = _
  rw [hlen]
  unfold advanced kHeaderSize
  rw [hb]
  omega

theorem WriteHeader_inStep (w : Writer) (d : WritableFileWriter) (str : List Nat)
    (hin : inStep w d) :
    ∃ s w1 d1, w.WriteHeader str = some (s, w1) ∧ inStep w1 d1 := by
  unfold Writer.WriteHeader
  rw [hin.1]
  by_cases h1 : (d.Append str).1.isOk = true
  · refine ⟨_, _, (d.Append str).2.Flush.2, by simp only [h1, if_true]; rfl, rfl, ?_⟩
    intro happ
    have a1 := appendsOk_Append _ _ (appendsOk_Flush _ happ)
    have hb := hin.2 a1.1
    show (w.block_offset_ + str.length) % 2 ^ 64 = _
    rw [Flush_contents, Append_contents_of_isOk _ _ h1, List.length_append, hb]
    omega
  · refine ⟨_, _, (d.Append str).2, by simp only [h1]; rfl, rfl, ?_⟩
    intro happ
    exact absurd (appendsOk_Append _ _ happ).2 h1

theorem step_inStep (x : Externals) (w : Writer) (d : WritableFileWriter) (o : Op)
    (hin : inStep w d) :
    ∃ r w1 d1, w.step x o = some (r, w1) ∧ inStep w1 d1 := by
  cases o with
  | WriteHeader str =>
    obtain ⟨s, w1, d1, hs, h1⟩ := WriteHeader_inStep w d str hin
    exact ⟨{ status := s, key_offset := 0, blob_offset := 0 }, w1, d1,
      by simp [Writer.step, hs], h1⟩
  | AddRecord junk key val => exact emit_inStep x w d junk _ _ key val _ _ hin
  | AddRecordTTL junk key val ttl => exact emit_inStep x w d junk _ _ key val _ _ hin

theorem run_inStep (x : Externals) (ops : List Op) :
    ∀ (w : Writer) (d : WritableFileWriter), inStep w d →
      ∃ rs w1 d1, w.run x ops = some (rs, w1) ∧ inStep w1 d1 := by
  induction ops with
  | nil => exact fun w d hin => ⟨[], w, d, rfl, hin⟩
  | cons o os ih =>
    intro w d hin
    obtain ⟨r, w1, d1, hs, h1⟩ := step_inStep x w d o hin
    obtain ⟨rs, w2, d2, hr, h2⟩ := ih w1 d1 h1
    exact ⟨r :: rs, w2, d2, by simp [Writer.run, hs, hr], h2⟩

theorem create_inStep (x : Externals) (script : List Reply) (ln bps : Nat) (fs : Bool) :
    inStep (Writer.create x (WritableFileWriter.fresh script) ln bps fs)
      (WritableFileWriter.fresh script) :=
  ⟨rfl, fun _ => rfl⟩

theorem writeRecord_status_ok (d : WritableFileWriter) (buf key val : List Nat)
    (h : (writeRecord d buf key val).1 = Status.ok) :
    (writeRecord d buf key val).2.contents = d.contents ++ buf ++ key ++ val := by
  unfold writeRecord at h ⊢
  split_ifs at h ⊢ with h1 h2 h3
  · rw [Flush_contents, Append_contents_of_isOk _ _ h3, Append_contents_of_isOk _ _ h2,
      Append_contents_of_isOk _ _ h1]
  · rw [h] at h3
    exact absurd rfl h3
  · rw [h] at h2
    exact absurd rfl h2
  · rw [h] at h1
    exact absurd rfl h1

theorem emit_offsetsMatchFile (x : Externals) (w : Writer) (d : WritableFileWriter)
    (junk : Nat → Nat) (t st : Nat) (key val : List Nat) (ttl ts : Int)
    (hin : inStep w d) (happ : appendsOk d.calls) :
    offsetsMatchFile d key val (w.EmitPhysicalRecord x junk t st key val ttl ts) := by
  have hb := hin.2 happ
  refine ⟨_, _, _, emit_eq x w d junk t st key val ttl ts hin.1, rfl, ?_⟩
  intro hst hsz
  have hc := writeRecord_status_ok _ _ _ _ hst
  refine ⟨⟨formatHeader x junk t st key val ttl ts, length_formatHeader _ _ _ _ _ _ _ _, ?_⟩,
    ?_, ?_⟩
  · by_cases hsd : syncDue w key val = true
    · simp only [hsd, if_true, Sync_contents, hc]
    · have hf : syncDue w key val = false := by simpa using hsd
      simp only [hf, Bool.false_eq_true, if_false, hc]
  · show (w.block_offset_ + kHeaderSize) % 2 ^ 64 = _
    unfold kHeaderSize
    rw [hb]
    omega
  · show ((w.block_offset_ + kHeaderSize) % 2 ^ 64 + key.length) % 2 ^ 64
      = (w.block_offset_ + kHeaderSize) % 2 ^ 64 + key.length
    unfold kHeaderSize
    rw [hb]
    omega

theorem WriteHeader_block_offset (w : Writer) (d : WritableFileWriter) (str : List Nat)
    (s : Status) (w1 : Writer) (hd : w.dest_ = some d)
    (hw : w.WriteHeader str = some (s, w1)) (hs : s = Status.ok) :
    w1.block_offset_ = (w.block_offset_ + str.length) % 2 ^ 64 := by
  unfold Writer.WriteHeader at hw
  rw [hd] at hw
  by_cases h1 : (d.Append str).1.isOk = true
  · simp only [h1, if_true, Option.some.injEq, Prod.mk.injEq] at hw
    rw [← hw.2]
  · simp only [h1, Bool.false_eq_true, if_false, Option.some.injEq, Prod.mk.injEq] at hw
    rw [← hw.1] at hs
    rw [hs] at h1
    exact absurd rfl h1

/-- C5, as amended: for every sequence of `WriteHeader`/`AddRecord` calls on a
freshly constructed writer over an empty file, the sequence returns, and if
every append made on the stream so far succeeded (flushes and syncs may have
failed), then an `AddRecord` (either variant) that returns ok has put a 30-byte
header, the key and the value at the end of the file, its `key_offset` is the
file position right after that header and its `blob_offset` is
`key_offset + key length` (file below 2^64 bytes). In particular, after a
successful `WriteHeader` of encoded length `L` a successful
`AddRecord("k1", "v1")` returns `key_offset = L + 30` and
`blob_offset = key_offset + 2`. -/
theorem C5_offsets_match_file (x : Externals) (script : List Reply) (ln bps : Nat) (fs : Bool)
    (pre : List Op) (junk : Nat → Nat) (key val : List Nat) (ttl : Nat) (str : List Nat) :
    (∃ rs w1 d1,
      (Writer.create x (WritableFileWriter.fresh script) ln bps fs).run x pre = some (rs, w1) ∧
      w1.dest_ = some d1 ∧
      (appendsOk d1.calls →
        offsetsMatchFile d1 key val (w1.AddRecord x junk key val) ∧
        offsetsMatchFile d1 key val (w1.AddRecordTTL x junk key val ttl))) ∧
    (∃ r1 r2 w2,
      (Writer.create x (WritableFileWriter.fresh script) ln bps fs).run x
        [Op.WriteHeader str, Op.AddRecord junk [107, 49] [118, 49]] = some ([r1, r2], w2) ∧
      (r1.status = Status.ok → r2.status = Status.ok → str.length + 34 < 2 ^ 64 →
        r2.key_offset = str.length + 30 ∧ r2.blob_offset = r2.key_offset + 2)) := by
  constructor
  · obtain ⟨rs, w1, d1, hr, h1⟩ := run_inStep x pre _ _ (create_inStep x script ln bps fs)
    exact ⟨rs, w1, d1, hr, h1.1, fun happ =>
      ⟨emit_offsetsMatchFile x w1 d1 junk _ _ key val _ _ h1 happ,
       emit_offsetsMatchFile x w1 d1 junk _ _ key val _ _ h1 happ⟩⟩
  · obtain ⟨s, w1, d1, hw, h1⟩ :=
      WriteHeader_inStep _ _ str (create_inStep x script ln bps fs)
    obtain ⟨r2, w2, he, hk, hv⟩ : ∃ r2 w2,
        w1.EmitPhysicalRecord x junk x.kFullType x.kRegularType [107, 49] [118, 49] (-1) (-1)
          = some (r2, w2) ∧
        r2.key_offset = (w1.block_offset_ + 30) % 2 ^ 64 ∧
        r2.blob_offset = (r2.key_offset + 2) % 2 ^ 64 :=
      ⟨_, _, emit_eq x w1 d1 junk _ _ [107, 49] [118, 49] (-1) (-1) h1.1, rfl, rfl⟩
    refine ⟨{ status := s, key_offset := 0, blob_offset := 0 }, r2, w2, ?_, ?_⟩
    · simp only [Writer.run, Writer.step, hw, Writer.AddRecord, he]
    · intro hs _ hsz
      have hb := WriteHeader_block_offset _ _ str s w1 rfl hw hs
      have h0 : (Writer.create x (WritableFileWriter.fresh script) ln bps fs).block_offset_ = 0 :=
        rfl
      rw [h0] at hb
      rw [hv, hk, hb]
      omega

/-- C5 as the claim states it fails: on a fresh writer whose first call
`AddRecord("k", "v")` fails in its header append (nothing reaches the file), the
next call `AddRecord("k1", "v1")` returns ok and `key_offset = 62`, while its
30-byte header starts at file position 0, so that the position right after it
is 30. -/
theorem C5_counterexample :
    ∃ rs w1 d1 r w2 d2 h,
      (Writer.create sampleExternals (WritableFileWriter.fresh [Reply.fail 5 0]) 7 4096
        false).run sampleExternals [Op.AddRecord junkAA [107] [118]] = some (rs, w1) ∧
      w1.dest_ = some d1 ∧
      w1.AddRecord sampleExternals junkAA [107, 49] [118, 49] = some (r, w2) ∧
      w2.dest_ = some d2 ∧
      r.status = Status.ok ∧
      h.length = 30 ∧ d1.contents = [] ∧ d2.contents = d1.contents ++ h ++ [107, 49] ++ [118, 49] ∧
      d1.contents.length + 30 = 30 ∧ r.key_offset = 62 ∧
      r.key_offset ≠ d1.contents.length + 30 :=
  ⟨_, _, _, _, _, _, formatHeader sampleExternals junkAA sampleExternals.kFullType
      sampleExternals.kRegularType [107, 49] [118, 49] (-1) (-1),
    rfl, rfl, rfl, rfl, rfl, length_formatHeader _ _ _ _ _ _ _ _, rfl, rfl, rfl, rfl,
    by decide⟩

/-- C5 at a concrete input: on a fresh writer a `WriteHeader` of three bytes
succeeds, then `AddRecord("k1", "v1")` succeeds and returns the offsets 33 and
35. -/
theorem C5_offsets_match_file_witness :
    ∃ r1 r2 w2,
      (Writer.create sampleExternals (WritableFileWriter.fresh []) 7 4096 false).run
        sampleExternals [Op.WriteHeader [1, 2, 3], Op.AddRecord junkAA [107, 49] [118, 49]]
        = some ([r1, r2], w2) ∧
      r1.status = Status.ok ∧ r2.status = Status.ok ∧ [1, 2, 3].length + 34 < 2 ^ 64 ∧
      r2.key_offset = [1, 2, 3].length + 30 ∧ r2.blob_offset = r2.key_offset + 2 := by
  obtain ⟨r1, r2, w2, hrun, himp⟩ :=
    (C5_offsets_match_file sampleExternals [] 7 4096 false [] junkAA [] [] 0 [1, 2, 3]).2
  have hc : ∃ w, (Writer.create sampleExternals (WritableFileWriter.fresh []) 7 4096 false).run
        sampleExternals [Op.WriteHeader [1, 2, 3], Op.AddRecord junkAA [107, 49] [118, 49]]
        = some ([{ status := Status.ok, key_offset := 0, blob_offset := 0 },
                 { status := Status.ok, key_offset := 33, blob_offset := 35 }], w) :=
    ⟨_, rfl⟩
  obtain ⟨w, hw⟩ := hc
  rw [hrun] at hw
  simp only [Option.some.injEq, Prod.mk.injEq, List.cons.injEq, and_true] at hw
  have h1 : r1.status = Status.ok := by rw [hw.1.1]
  have h2 : r2.status = Status.ok := by rw [hw.1.2]
  exact ⟨r1, r2, w2, hrun, h1, h2, by decide, himp h1 h2 (by decide)⟩

/-! ## Reading records back -/

theorem slice_append_mid (a b c : List Nat) (off len : Nat) (ho : off = a.length)
    (hl : len = b.length) : slice (a ++ (b ++ c)) off len = b := by
  subst ho hl
  simp [slice]

theorem slice_append_head (a h c : List Nat) (off n : Nat) (ho : off = a.length)
    (hn : n ≤ h.length) : slice (a ++ (h ++ c)) off n = slice h 0 n := by
  subst ho
  simp [slice, List.take_append_of_le_length hn]

theorem recordAt_layout (x : Externals) (a h key val sfx : List Nat) (r : Ret)
    (hlen : h.length = 30) (hcrc : slice h 0 4 = EncodeFixed32 (storedCrc x val))
    (hs : r.status = Status.ok) (hk : r.key_offset = a.length + 30)
    (hb : r.blob_offset = a.length + 30 + key.length) :
    recordAt x (a ++ h ++ key ++ val ++ sfx) key val r := by
  have hv : slice (a ++ h ++ key ++ val ++ sfx) r.blob_offset val.length = val := by
    have e : a ++ h ++ key ++ val ++ sfx = (a ++ h ++ key) ++ (val ++ sfx) := by simp
    rw [e]
    exact slice_append_mid _ _ _ _ _ (by simp [hb, hlen]; omega) rfl
  refine ⟨hs, by omega, hv, ?_, ?_⟩
  · have e : a ++ h ++ key ++ val ++ sfx = (a ++ h) ++ (key ++ (val ++ sfx)) := by simp
    rw [e]
    exact slice_append_mid _ _ _ _ _ (by simp [hk, hlen]) rfl
  · rw [hv]
    have e : a ++ h ++ key ++ val ++ sfx = a ++ (h ++ (key ++ val ++ sfx)) := by simp
    have hlt : storedCrc x val < 2 ^ 32 := Nat.mod_lt _ (by norm_num)
    rw [e, slice_append_head _ _ _ _ _ (by omega) (by omega), hcrc,
      DecodeFixed32_EncodeFixed32 _ hlt]
    rfl

theorem emit_good (x : Externals) (w : Writer) (d : WritableFileWriter)
    (junk : Nat → Nat) (t st : Nat) (key val : List Nat) (ttl ts : Int)
    (hg : good w d) (hsz : d.contents.length + (kHeaderSize + key.length + val.length) < 2 ^ 64) :
    ∃ r w1 d1, w.EmitPhysicalRecord x junk t st key val ttl ts = some (r, w1) ∧
      good w1 d1 ∧
      d1.contents = d.contents ++ formatHeader x junk t st key val ttl ts ++ key ++ val ∧
      r.status = Status.ok ∧ r.key_offset = d.contents.length + 30 ∧
      r.blob_offset = d.contents.length + 30 + key.length := by
  obtain ⟨hd, hok, hb⟩ := hg
  have hw := writeRecord_ok d (formatHeader x junk t st key val ttl ts) key val hok
  have h4 : ∀ r ∈ d.script.tail.tail.tail.tail, r = Reply.ok :=
    tail_all_ok _ (tail_all_ok _ (tail_all_ok _ (tail_all_ok _ hok)))
  have hadv : advanced w key val = d.contents.length + 30 + key.length + val.length := by
    unfold advanced
    unfold kHeaderSize at hsz ⊢
    rw [hb]
    omega
  unfold kHeaderSize at hsz
  refine ⟨_, _, _, emit_eq x w d junk t st key val ttl ts hd, ⟨rfl, ?_, ?_⟩, ?_, ?_, ?_, ?_⟩
  · by_cases hsd : syncDue w key val = true
    · simp only [hsd, if_true, hw]
      rw [Sync_ok _ _ h4]
      exact tail_all_ok _ h4
    · have hf : syncDue w key val = false := by simpa using hsd
      simp only [hf, Bool.false_eq_true, if_false, hw]
      exact h4
  · show advanced w key val = _
    rw [hadv]
    by_cases hsd : syncDue w key val = true
    · simp [hsd, hw, Sync_contents, length_formatHeader]
      omega
    · have hf : syncDue w key val = false := by simpa using hsd
      simp [hf, hw, length_formatHeader]
      omega
  · by_cases hsd : syncDue w key val = true
    · simp [hsd, hw, Sync_contents]
    · have hf : syncDue w key val = false := by simpa using hsd
      simp [hf, hw]
  · simp [hw]
  · show (w.block_offset_ + kHeaderSize) % 2 ^ 64 = _
    unfold kHeaderSize
    rw [hb]
    omega
  · show ((w.block_offset_ + kHeaderSize) % 2 ^ 64 + key.length) % 2 ^ 64 = _
    unfold kHeaderSize
    rw [hb]
    omega

theorem WriteHeader_good (w : Writer) (d : WritableFileWriter) (str : List Nat)
    (hg : good w d) (hsz : d.contents.length + str.length < 2 ^ 64) :
    ∃ w1 d1, w.WriteHeader str = some (Status.ok, w1) ∧ good w1 d1 ∧
      d1.contents = d.contents ++ str := by
  obtain ⟨hd, hok, hb⟩ := hg
  have h1 := tail_all_ok _ hok
  unfold Writer.WriteHeader
  rw [hd]
  simp only [Append_ok d str hok, Status.isOk, if_true]
  rw [Flush_ok _ h1]
  refine ⟨_, _, rfl, ⟨rfl, ?_, ?_⟩, rfl⟩
  · exact tail_all_ok _ h1
  · show (w.block_offset_ + str.length) % 2 ^ 64 = (d.contents ++ str).length
    rw [hb, List.length_append]
    omega

theorem step_good (x : Externals) (w : Writer) (d : WritableFileWriter) (o : Op)
    (hg : good w d) (hsz : d.contents.length + o.size < 2 ^ 64) :
    ∃ r w1 d1 bytes, w.step x o = some (r, w1) ∧ good w1 d1 ∧
      d1.contents = d.contents ++ bytes ∧ bytes.length = o.size ∧
      ∀ sfx, readsBack x (d1.contents ++ sfx) o r := by
  cases o with
  | WriteHeader str =>
    obtain ⟨w1, d1, hs, h1, hc⟩ := WriteHeader_good w d str hg hsz
    exact ⟨{ status := Status.ok, key_offset := 0, blob_offset := 0 }, w1, d1, str,
      by simp [Writer.step, hs], h1, hc, rfl, fun _ => rfl⟩
  | AddRecord junk key val =>
    obtain ⟨r, w1, d1, he, h1, hc, hs, hk, hb⟩ :=
      emit_good x w d junk x.kFullType x.kRegularType key val (-1) (-1) hg hsz
    refine ⟨r, w1, d1, formatHeader x junk x.kFullType x.kRegularType key val (-1) (-1)
      ++ key ++ val, he, h1, by simp [hc],
      by simp [length_formatHeader, Op.size, kHeaderSize]; omega, ?_⟩
    intro sfx
    rw [hc]
    exact recordAt_layout x _ _ key val sfx r (length_formatHeader _ _ _ _ _ _ _ _)
      (formatHeader_slices _ _ _ _ _ _ _ _).1 hs hk hb
  | AddRecordTTL junk key val ttl =>
    obtain ⟨r, w1, d1, he, h1, hc, hs, hk, hb⟩ :=
      emit_good x w d junk x.kFullType x.kTTLType key val (toInt32 ttl) kDefaultTs hg hsz
    refine ⟨r, w1, d1, formatHeader x junk x.kFullType x.kTTLType key val (toInt32 ttl)
      kDefaultTs ++ key ++ val, he, h1, by simp [hc],
      by simp [length_formatHeader, Op.size, kHeaderSize]; omega, ?_⟩
    intro sfx
    rw [hc]
    exact recordAt_layout x _ _ key val sfx r (length_formatHeader _ _ _ _ _ _ _ _)
      (formatHeader_slices _ _ _ _ _ _ _ _).1 hs hk hb

theorem run_good (x : Externals) (ops : List Op) :
    ∀ (w : Writer) (d : WritableFileWriter), good w d →
      d.contents.length + (ops.map Op.size).sum < 2 ^ 64 →
      ∃ rs w1 d1 sfx, w.run x ops = some (rs, w1) ∧ good w1 d1 ∧
        d1.contents = d.contents ++ sfx ∧ rs.length = ops.length ∧
        ∀ (i : Nat) (o : Op) (r : Ret), ops[i]? = some o → rs[i]? = some r → readsBack x d1.contents o r := by
  induction ops with
  | nil =>
    intro w d hg _
    exact ⟨[], w, d, [], rfl, hg, by simp, rfl, fun i o r ho => by simp at ho⟩
  | cons o os ih =>
    intro w d hg hsz
    simp only [List.map_cons, List.sum_cons] at hsz
    obtain ⟨r, w1, d1, bytes, hs, h1, hc, hl, hrb⟩ := step_good x w d o hg (by omega)
    obtain ⟨rs, w2, d2, sfx, hr, h2, hc2, hlen, hall⟩ :=
      ih w1 d1 h1 (by rw [hc, List.length_append, hl]; omega)
    refine ⟨r :: rs, w2, d2, bytes ++ sfx, by simp [Writer.run, hs, hr], h2,
      by rw [hc2, hc, List.append_assoc], by simp [hlen], ?_⟩
    intro i o1 r1 ho hr1
    cases i with
    | zero =>
      simp only [List.getElem?_cons_zero, Option.some.injEq] at ho hr1
      subst ho hr1
      rw [hc2]
      exact hrb sfx
    | succ j =>
      simp only [List.getElem?_cons_succ] at ho hr1
      exact hall j o1 r1 ho hr1

/-- C6: round trip. For every sequence of `WriteHeader`/`AddRecord` calls on a
fresh writer over an empty file in which every reply of the stream is a
success (total size below 2^64 bytes), the sequence returns one result per
call, every call returned ok, and for every record written the final file
holds the value in `[blob_offset, blob_offset + value length)`, the key in
`[key_offset, key_offset + key length)`, and at `key_offset - 30` the
little-endian 32-bit number `Mask(Extend(0, v))` for the value bytes `v` read
back from the file. -/
theorem C6_round_trip (x : Externals) (script : List Reply) (ln bps : Nat) (fs : Bool)
    (ops : List Op) (hok : ∀ r ∈ script, r = Reply.ok)
    (hsz : (ops.map Op.size).sum < 2 ^ 64) :
    ∃ rs w1 d1,
      (Writer.create x (WritableFileWriter.fresh script) ln bps fs).run x ops = some (rs, w1) ∧
      w1.dest_ = some d1 ∧ rs.length = ops.length ∧
      ∀ (i : Nat) (o : Op) (r : Ret), ops[i]? = some o → rs[i]? = some r → readsBack x d1.contents o r := by
  have hg : good (Writer.create x (WritableFileWriter.fresh script) ln bps fs)
      (WritableFileWriter.fresh script) := ⟨rfl, hok, rfl⟩
  obtain ⟨rs, w1, d1, sfx, hr, h1, -, hlen, hall⟩ :=
    run_good x ops _ _ hg (by simpa [WritableFileWriter.fresh] using hsz)
  exact ⟨rs, w1, d1, hr, h1.1, hlen, hall⟩

/-- C6 at a concrete input: a header of three bytes, then the record
("k1", "v1") and the record ("k2", "v2") with ttl 3600, on a stream whose replies
are all successes. -/
theorem C6_round_trip_witness :
    (∀ r ∈ [Reply.ok, Reply.ok], r = Reply.ok) ∧
    (([Op.WriteHeader [1, 2, 3], Op.AddRecord junkAA [107, 49] [118, 49],
        Op.AddRecordTTL junkAA [107, 50] [118, 50] 3600].map Op.size).sum < 2 ^ 64) ∧
    ∃ rs w1 d1,
      (Writer.create sampleExternals (WritableFileWriter.fresh [Reply.ok, Reply.ok]) 7 4096
        false).run sampleExternals
        [Op.WriteHeader [1, 2, 3], Op.AddRecord junkAA [107, 49] [118, 49],
          Op.AddRecordTTL junkAA [107, 50] [118, 50] 3600] = some (rs, w1) ∧
      w1.dest_ = some d1 ∧
      rs.length = [Op.WriteHeader [1, 2, 3], Op.AddRecord junkAA [107, 49] [118, 49],
          Op.AddRecordTTL junkAA [107, 50] [118, 50] 3600].length ∧
      ∀ (i : Nat) (o : Op) (r : Ret),
        [Op.WriteHeader [1, 2, 3], Op.AddRecord junkAA [107, 49] [118, 49],
          Op.AddRecordTTL junkAA [107, 50] [118, 50] 3600][i]? = some o →
        rs[i]? = some r → readsBack sampleExternals d1.contents o r :=
  ⟨by decide, by decide,
    C6_round_trip sampleExternals [Reply.ok, Reply.ok] 7 4096 false
      [Op.WriteHeader [1, 2, 3], Op.AddRecord junkAA [107, 49] [118, 49],
        Op.AddRecordTTL junkAA [107, 50] [118, 50] 3600] (by decide) (by decide)⟩

/-! ## Successive records -/

theorem emit_fields (x : Externals) (w : Writer) (d : WritableFileWriter)
    (junk : Nat → Nat) (t st : Nat) (key val : List Nat) (ttl ts : Int)
    (hd : w.dest_ = some d) :
    ∃ r w1 d1, w.EmitPhysicalRecord x junk t st key val ttl ts = some (r, w1) ∧
      w1.dest_ = some d1 ∧
      r.key_offset = (w.block_offset_ + 30) % 2 ^ 64 ∧
      r.blob_offset = ((w.block_offset_ + 30) % 2 ^ 64 + key.length) % 2 ^ 64 ∧
      w1.block_offset_ = (w.block_offset_ + (30 + key.length + val.length)) % 2 ^ 64 ∧
      frameKept w w1 :=
  ⟨_, _, _, emit_eq x w d junk t st key val ttl ts hd, rfl, rfl, rfl, rfl, rfl, rfl, rfl, rfl⟩

theorem emit_successive (x : Externals) (w : Writer) (d : WritableFileWriter)
    (junk1 junk2 : Nat → Nat) (t1 st1 t2 st2 : Nat) (key1 val1 key2 val2 : List Nat)
    (ttl1 ts1 ttl2 ts2 : Int) (hd : w.dest_ = some d)
    (hsz : w.block_offset_ + 30 + key1.length + val1.length + 30 + key2.length + val2.length
      < 2 ^ 64) :
    successive val1 key2 (w.EmitPhysicalRecord x junk1 t1 st1 key1 val1 ttl1 ts1)
      (fun w1 => w1.EmitPhysicalRecord x junk2 t2 st2 key2 val2 ttl2 ts2) := by
  obtain ⟨r1, w1, d1, he1, hd1, hk1, hb1, ho1, -⟩ :=
    emit_fields x w d junk1 t1 st1 key1 val1 ttl1 ts1 hd
  obtain ⟨r2, w2, d2, he2, -, hk2, hb2, -, -⟩ :=
    emit_fields x w1 d1 junk2 t2 st2 key2 val2 ttl2 ts2 hd1
  refine ⟨r1, w1, r2, w2, he1, he2, ?_⟩
  rw [hk1, hb1, hk2, hb2, ho1]
  omega

/-- C12: for every two successive `AddRecord` calls on the same writer (any
mix of the two variants) with `block_offset_` not overflowing 2^64, the first
call's `key_offset` is at most its `blob_offset`, the second call's
`key_offset` is strictly greater than the first call's `blob_offset` and equals
`blob_offset₁ + value_length₁ + 30`, so that the returned offsets strictly
increase and the byte range of the second record starts where that of the
first ends. This holds whatever the two calls return, in particular when both
return ok. -/
theorem C12_offsets_strictly_increase (x : Externals) (w : Writer) (d : WritableFileWriter)
    (junk1 junk2 : Nat → Nat) (key1 val1 key2 val2 : List Nat) (ttl1 ttl2 : Nat)
    (hd : w.dest_ = some d)
    (hsz : w.block_offset_ + 30 + key1.length + val1.length + 30 + key2.length + val2.length
      < 2 ^ 64) :
    successive val1 key2 (w.AddRecord x junk1 key1 val1)
      (fun w1 => w1.AddRecord x junk2 key2 val2) ∧
    successive val1 key2 (w.AddRecord x junk1 key1 val1)
      (fun w1 => w1.AddRecordTTL x junk2 key2 val2 ttl2) ∧
    successive val1 key2 (w.AddRecordTTL x junk1 key1 val1 ttl1)
      (fun w1 => w1.AddRecord x junk2 key2 val2) ∧
    successive val1 key2 (w.AddRecordTTL x junk1 key1 val1 ttl1)
      (fun w1 => w1.AddRecordTTL x junk2 key2 val2 ttl2) :=
  ⟨emit_successive x w d junk1 junk2 _ _ _ _ key1 val1 key2 val2 _ _ _ _ hd hsz,
   emit_successive x w d junk1 junk2 _ _ _ _ key1 val1 key2 val2 _ _ _ _ hd hsz,
   emit_successive x w d junk1 junk2 _ _ _ _ key1 val1 key2 val2 _ _ _ _ hd hsz,
   emit_successive x w d junk1 junk2 _ _ _ _ key1 val1 key2 val2 _ _ _ _ hd hsz⟩

/-- C12 at a concrete input: a fresh writer, the records ("k1", "v1") and
("k2", "v2"), the ttl 3600. -/
theorem C12_offsets_strictly_increase_witness :
    (Writer.create sampleExternals (WritableFileWriter.fresh []) 7 4096 false).dest_
      = some (WritableFileWriter.fresh []) ∧
    (Writer.create sampleExternals (WritableFileWriter.fresh []) 7 4096 false).block_offset_
      + 30 + [107, 49].length + [118, 49].length + 30 + [107, 50].length + [118, 50].length
      < 2 ^ 64 ∧
    successive [118, 49] [107, 50]
      ((Writer.create sampleExternals (WritableFileWriter.fresh []) 7 4096 false).AddRecord
        sampleExternals junkAA [107, 49] [118, 49])
      (fun w1 => w1.AddRecord sampleExternals junkAA [107, 50] [118, 50]) ∧
    successive [118, 49] [107, 50]
      ((Writer.create sampleExternals (WritableFileWriter.fresh []) 7 4096 false).AddRecord
        sampleExternals junkAA [107, 49] [118, 49])
      (fun w1 => w1.AddRecordTTL sampleExternals junkAA [107, 50] [118, 50] 3600) ∧
    successive [118, 49] [107, 50]
      ((Writer.create sampleExternals (WritableFileWriter.fresh []) 7 4096 false).AddRecordTTL
        sampleExternals junkAA [107, 49] [118, 49] 3600)
      (fun w1 => w1.AddRecord sampleExternals junkAA [107, 50] [118, 50]) ∧
    successive [118, 49] [107, 50]
      ((Writer.create sampleExternals (WritableFileWriter.fresh []) 7 4096 false).AddRecordTTL
        sampleExternals junkAA [107, 49] [118, 49] 3600)
      (fun w1 => w1.AddRecordTTL sampleExternals junkAA [107, 50] [118, 50] 3600) :=
  ⟨rfl, by decide,
    C12_offsets_strictly_increase sampleExternals _ _ junkAA junkAA [107, 49] [118, 49]
      [107, 50] [118, 50] 3600 3600 rfl (by decide)⟩

/-! ## Framing calls: `WriteHeader` and `AppendFooter` -/

theorem WriteHeader_eq (w : Writer) (d : WritableFileWriter) (str : List Nat)
    (hd : w.dest_ = some d) :
    w.WriteHeader str =
      some (if (d.Append str).1.isOk then
          ((d.Append str).2.Flush.1,
            { w with dest_ := some (d.Append str).2.Flush.2,
                     block_offset_ := (w.block_offset_ + str.length) % 2 ^ 64 })
        else ((d.Append str).1, { w with dest_ := some (d.Append str).2 })) := by
  unfold Writer.WriteHeader
  rw [hd]
  simp only []
  split_ifs <;> rfl

theorem AppendFooter_eq (w : Writer) (d : WritableFileWriter) (str : List Nat)
    (hd : w.dest_ = some d) :
    w.AppendFooter str =
      some (if (d.Append str).1.isOk then
          ((d.Append str).2.Close.1,
            { w with dest_ := none,
                     block_offset_ := (w.block_offset_ + str.length) % 2 ^ 64 },
            (d.Append str).2.Close.2)
        else ((d.Append str).1, { w with dest_ := some (d.Append str).2 },
          (d.Append str).2)) := by
  unfold Writer.AppendFooter
  rw [hd]
  simp only []
  split_ifs <;> rfl

theorem isOk_of_eq_ok (s : Status) (h : s = Status.ok) : s.isOk = true := by
  rw [h]
  rfl

theorem not_isOk_of_ne_ok (s : Status) (h : s ≠ Status.ok) : s.isOk = false := by
  cases s with
  | ok => exact absurd rfl h
  | error c => rfl

/-- C13, as amended: for `WriteHeader` and for `AppendFooter` on a writer that
holds a stream, when the append of the encoded header or footer succeeds the
call returns the status of the flush (of the close, for the footer), success
or failure, and `block_offset_` has been advanced by the encoded length (in 64
bits); when the append itself fails the call returns that failure and
`block_offset_` is unchanged. In particular on success `block_offset_` is
advanced by exactly the encoded length. -/
theorem C13_block_offset_after_framing (w : Writer) (d : WritableFileWriter)
    (str : List Nat) (hd : w.dest_ = some d) :
    (∃ s w1, w.WriteHeader str = some (s, w1) ∧
      ((d.Append str).1 = Status.ok →
        s = (d.Append str).2.Flush.1 ∧
        w1.block_offset_ = (w.block_offset_ + str.length) % 2 ^ 64) ∧
      ((d.Append str).1 ≠ Status.ok →
        s = (d.Append str).1 ∧ w1.block_offset_ = w.block_offset_) ∧
      (s = Status.ok → w1.block_offset_ = (w.block_offset_ + str.length) % 2 ^ 64)) ∧
    (∃ s w1 d1, w.AppendFooter str = some (s, w1, d1) ∧
      ((d.Append str).1 = Status.ok →
        s = (d.Append str).2.Close.1 ∧
        w1.block_offset_ = (w.block_offset_ + str.length) % 2 ^ 64) ∧
      ((d.Append str).1 ≠ Status.ok →
        s = (d.Append str).1 ∧ w1.block_offset_ = w.block_offset_) ∧
      (s = Status.ok → w1.block_offset_ = (w.block_offset_ + str.length) % 2 ^ 64)) := by
  have e1 := WriteHeader_eq w d str hd
  have e2 := AppendFooter_eq w d str hd
  by_cases h1 : (d.Append str).1 = Status.ok
  · rw [if_pos (isOk_of_eq_ok _ h1)] at e1 e2
    exact ⟨⟨_, _, e1, fun _ => ⟨rfl, rfl⟩, fun hne => absurd h1 hne, fun _ => rfl⟩,
      ⟨_, _, _, e2, fun _ => ⟨rfl, rfl⟩, fun hne => absurd h1 hne, fun _ => rfl⟩⟩
  · have hi := not_isOk_of_ne_ok _ h1
    rw [if_neg (by rw [hi]; exact Bool.false_ne_true)] at e1 e2
    exact ⟨⟨_, _, e1, fun he => absurd he h1, fun _ => ⟨rfl, rfl⟩, fun he => absurd he h1⟩,
      ⟨_, _, _, e2, fun he => absurd he h1, fun _ => ⟨rfl, rfl⟩, fun he => absurd he h1⟩⟩

/-- C13 at a concrete input: a header of three bytes on a fresh writer whose
stream accepts the append and fails the flush or the close. -/
theorem C13_block_offset_after_framing_witness :
    (Writer.create sampleExternals (WritableFileWriter.fresh [Reply.ok, Reply.fail 5 0]) 7 4096
      false).dest_ = some (WritableFileWriter.fresh [Reply.ok, Reply.fail 5 0]) ∧
    ∃ s w1, (Writer.create sampleExternals (WritableFileWriter.fresh [Reply.ok, Reply.fail 5 0])
        7 4096 false).WriteHeader [1, 2, 3] = some (s, w1) ∧
      s = Status.error 5 ∧ w1.block_offset_ = 3 := by
  refine ⟨rfl, ?_⟩
  obtain ⟨⟨s, w1, hw, hok, -, -⟩, -⟩ :=
    C13_block_offset_after_framing
      (Writer.create sampleExternals (WritableFileWriter.fresh [Reply.ok, Reply.fail 5 0]) 7 4096
        false) (WritableFileWriter.fresh [Reply.ok, Reply.fail 5 0]) [1, 2, 3] rfl
  exact ⟨s, w1, hw, (hok rfl).1, (hok rfl).2⟩

/-- C13 as the claim states it fails: on a fresh writer whose stream fails the
append, `WriteHeader` of three bytes returns the failure and leaves
`block_offset_` at 0, not at 3, and so does `AppendFooter`. -/
theorem C13_counterexample :
    (∃ s w1, (Writer.create sampleExternals (WritableFileWriter.fresh [Reply.fail 5 0]) 7 4096
        false).WriteHeader [1, 2, 3] = some (s, w1) ∧
      s = Status.error 5 ∧ w1.block_offset_ = 0 ∧ w1.block_offset_ ≠ 0 + [1, 2, 3].length) ∧
    (∃ s w1 d1, (Writer.create sampleExternals (WritableFileWriter.fresh [Reply.fail 5 0]) 7 4096
        false).AppendFooter [1, 2, 3] = some (s, w1, d1) ∧
      s = Status.error 5 ∧ w1.block_offset_ = 0 ∧ w1.block_offset_ ≠ 0 + [1, 2, 3].length) :=
  ⟨⟨_, _, rfl, rfl, rfl, by decide⟩, ⟨_, _, _, rfl, rfl, rfl, by decide⟩⟩

/-- C15, as amended: for every writer that holds a stream and every footer,
`AppendFooter` returns; if the append of the footer succeeded, the call made
exactly that append and one `Close` on the stream, the stream is closed, the
writer holds no stream any more (so that no further call on it has an
outcome), and the returned status is the status of the close; if the append
failed, the call made only that append, the stream is not closed by it, the
writer still holds it, and the returned status is the failure of the
append. -/
theorem C15_footer_closes_after_append (x : Externals) (w : Writer)
    (d : WritableFileWriter) (str : List Nat) (hd : w.dest_ = some d) :
    ∃ s w1 d1, w.AppendFooter str = some (s, w1, d1) ∧
      ((d.Append str).1 = Status.ok →
        w1.dest_ = none ∧ d1.closed = true ∧ s = (d.Append str).2.Close.1 ∧
        d1.calls = d.calls ++ [(Call.Append str, Status.ok), (Call.Close, s)] ∧
        (∀ junk key val ttl str1, w1.AddRecord x junk key val = none ∧
          w1.AddRecordTTL x junk key val ttl = none ∧ w1.WriteHeader str1 = none ∧
          w1.AppendFooter str1 = none)) ∧
      ((d.Append str).1 ≠ Status.ok →
        w1.dest_ = some d1 ∧ d1.closed = d.closed ∧ s = (d.Append str).1 ∧
        d1.calls = d.calls ++ [(Call.Append str, s)]) := by
  have e := AppendFooter_eq w d str hd
  by_cases h1 : (d.Append str).1 = Status.ok
  · rw [if_pos (isOk_of_eq_ok _ h1)] at e
    refine ⟨_, _, _, e, fun _ => ⟨rfl, rfl, rfl, ?_, fun _ _ _ _ _ => ⟨rfl, rfl, rfl, rfl⟩⟩,
      fun hne => absurd h1 hne⟩
    have hc : (d.Append str).2.Close.2.calls
        = (d.Append str).2.calls ++ [(Call.Close, (d.Append str).2.Close.1)] := rfl
    rw [hc, Append_calls, h1]
    simp
  · have hi := not_isOk_of_ne_ok _ h1
    rw [if_neg (by rw [hi]; exact Bool.false_ne_true)] at e
    refine ⟨_, _, _, e, fun he => absurd he h1, fun _ => ⟨rfl, ?_, rfl, Append_calls d str⟩⟩
    unfold WritableFileWriter.Append
    cases d.nextReply <;> rfl

/-- C15 at a concrete input: a footer of two bytes on a fresh writer whose
stream accepts the append and fails the close. -/
theorem C15_footer_closes_after_append_witness :
    (Writer.create sampleExternals (WritableFileWriter.fresh [Reply.ok, Reply.fail 6 0]) 7 4096
      false).dest_ = some (WritableFileWriter.fresh [Reply.ok, Reply.fail 6 0]) ∧
    ∃ s w1 d1, (Writer.create sampleExternals
        (WritableFileWriter.fresh [Reply.ok, Reply.fail 6 0]) 7 4096 false).AppendFooter [9, 9]
        = some (s, w1, d1) ∧
      w1.dest_ = none ∧ d1.closed = true ∧ s = Status.error 6 := by
  refine ⟨rfl, ?_⟩
  obtain ⟨s, w1, d1, hw, hok, -⟩ :=
    C15_footer_closes_after_append sampleExternals
      (Writer.create sampleExternals (WritableFileWriter.fresh [Reply.ok, Reply.fail 6 0]) 7 4096
        false) (WritableFileWriter.fresh [Reply.ok, Reply.fail 6 0]) [9, 9] rfl
  exact ⟨s, w1, d1, hw, (hok rfl).1, (hok rfl).2.1, (hok rfl).2.2.1⟩

/-- C15 as the claim states it fails: on a fresh writer whose stream fails the
append of the footer, `AppendFooter` returns with the stream not closed (no
`Close` was called) and the writer still holding it. -/
theorem C15_counterexample :
    ∃ s w1 d1, (Writer.create sampleExternals (WritableFileWriter.fresh [Reply.fail 5 0]) 7 4096
        false).AppendFooter [9, 9] = some (s, w1, d1) ∧
      s = Status.error 5 ∧ w1.dest_ = some d1 ∧ d1.closed = false ∧
      d1.calls = [(Call.Append [9, 9], Status.error 5)] :=
  ⟨_, _, _, rfl, rfl, rfl, rfl, rfl⟩

/-! ## Status returned by `AddRecord` -/

theorem writeRecord_cut (d : WritableFileWriter) (h key val : List Nat) :
    ∃ main, (writeRecord d h key val).2.calls = d.calls ++ main ∧
      cutAtFirstFailure h key val main (writeRecord d h key val).1 := by
  unfold writeRecord cutAtFirstFailure
  cases h1 : (d.Append h).1 with
  | error c =>
    refine ⟨[(Call.Append h, Status.error c)], ?_, Or.inl ⟨c, ?_, rfl⟩⟩
    · simp [h1, Status.isOk, Append_calls]
    · simp [h1, Status.isOk]
  | ok =>
    cases h2 : ((d.Append h).2.Append key).1 with
    | error c =>
      refine ⟨[(Call.Append h, Status.ok), (Call.Append key, Status.error c)], ?_,
        Or.inr (Or.inl ⟨c, ?_, rfl⟩)⟩
      · simp [h1, h2, Status.isOk, Append_calls]
      · simp [h1, h2, Status.isOk]
    | ok =>
      cases h3 : (((d.Append h).2.Append key).2.Append val).1 with
      | error c =>
        refine ⟨[(Call.Append h, Status.ok), (Call.Append key, Status.ok),
          (Call.Append val, Status.error c)], ?_, Or.inr (Or.inr (Or.inl ⟨c, ?_, rfl⟩))⟩
        · simp [h1, h2, h3, Status.isOk, Append_calls]
        · simp [h1, h2, h3, Status.isOk]
      | ok =>
        cases h4 : (((d.Append h).2.Append key).2.Append val).2.Flush.1 with
        | error c =>
          refine ⟨[(Call.Append h, Status.ok), (Call.Append key, Status.ok),
            (Call.Append val, Status.ok), (Call.Flush, Status.error c)], ?_,
            Or.inr (Or.inr (Or.inr (Or.inl ⟨c, ?_, rfl⟩)))⟩
          · simp [h1, h2, h3, h4, Status.isOk, Append_calls, Flush_calls]
          · simp [h1, h2, h3, h4, Status.isOk]
        | ok =>
          refine ⟨[(Call.Append h, Status.ok), (Call.Append key, Status.ok),
            (Call.Append val, Status.ok), (Call.Flush, Status.ok)], ?_,
            Or.inr (Or.inr (Or.inr (Or.inr ⟨?_, rfl⟩)))⟩
          · simp [h1, h2, h3, h4, Status.isOk, Append_calls, Flush_calls]
          · simp [h1, h2, h3, h4, Status.isOk]

theorem emit_stopsAtFirstFailure (x : Externals) (w : Writer) (d : WritableFileWriter)
    (junk : Nat → Nat) (t st : Nat) (key val : List Nat) (ttl ts : Int)
    (hd : w.dest_ = some d) :
    stopsAtFirstFailure w d key val (w.EmitPhysicalRecord x junk t st key val ttl ts) := by
  obtain ⟨main, hc, hcut⟩ :=
    writeRecord_cut d (formatHeader x junk t st key val ttl ts) key val
  by_cases hsd : syncDue w key val = true
  · refine ⟨_, _, _, formatHeader x junk t st key val ttl ts, main,
      [(Call.Sync true,
        ((writeRecord d (formatHeader x junk t st key val ttl ts) key val).2.Sync true).1)],
      emit_eq x w d junk t st key val ttl ts hd, rfl, length_formatHeader _ _ _ _ _ _ _ _,
      ?_, hcut, rfl, fun _ => ⟨_, rfl⟩, fun hf => ?_⟩
    · simp only [hsd, if_true, Sync_calls, hc]
    · rw [hsd] at hf
      exact absurd hf (by decide)
  · have hf : syncDue w key val = false := by simpa using hsd
    refine ⟨_, _, _, formatHeader x junk t st key val ttl ts, main, [],
      emit_eq x w d junk t st key val ttl ts hd, rfl, length_formatHeader _ _ _ _ _ _ _ _,
      ?_, hcut, rfl, fun ht => absurd ht hsd, fun _ => rfl⟩
    simp only [hf, Bool.false_eq_true, if_false, hc, List.append_nil]

/-- C17: for every `AddRecord` call (either variant) on a writer that holds a
stream, the calls made on the stream are the steps append(header),
append(key), append(value), flush cut after the first one that fails, followed
only by the sync of the schedule; the call returns the status of that first
failure, or ok if none of the four failed; and `block_offset_` is advanced and
the sync test runs whether or not a step failed. -/
theorem C17_status_of_first_failure (x : Externals) (w : Writer) (d : WritableFileWriter)
    (junk : Nat → Nat) (key val : List Nat) (ttl : Nat) (hd : w.dest_ = some d) :
    stopsAtFirstFailure w d key val (w.AddRecord x junk key val) ∧
    stopsAtFirstFailure w d key val (w.AddRecordTTL x junk key val ttl) :=
  ⟨emit_stopsAtFirstFailure x w d junk _ _ key val _ _ hd,
   emit_stopsAtFirstFailure x w d junk _ _ key val _ _ hd⟩

/-- C17 at a concrete input: a fresh writer whose stream fails the first
append, the key "k1", the value "v1", the ttl 3600. -/
theorem C17_status_of_first_failure_witness :
    (Writer.create sampleExternals (WritableFileWriter.fresh [Reply.fail 5 0]) 7 4096 false).dest_
      = some (WritableFileWriter.fresh [Reply.fail 5 0]) ∧
    stopsAtFirstFailure
      (Writer.create sampleExternals (WritableFileWriter.fresh [Reply.fail 5 0]) 7 4096 false)
      (WritableFileWriter.fresh [Reply.fail 5 0]) [107, 49] [118, 49]
      ((Writer.create sampleExternals (WritableFileWriter.fresh [Reply.fail 5 0]) 7 4096
        false).AddRecord sampleExternals junkAA [107, 49] [118, 49]) ∧
    stopsAtFirstFailure
      (Writer.create sampleExternals (WritableFileWriter.fresh [Reply.fail 5 0]) 7 4096 false)
      (WritableFileWriter.fresh [Reply.fail 5 0]) [107, 49] [118, 49]
      ((Writer.create sampleExternals (WritableFileWriter.fresh [Reply.fail 5 0]) 7 4096
        false).AddRecordTTL sampleExternals junkAA [107, 49] [118, 49] 3600) :=
  ⟨rfl, C17_status_of_first_failure sampleExternals _ _ junkAA [107, 49] [118, 49] 3600 rfl⟩

/-- C14, evaluated at a failing input: `AddRecord("k1", "v1")` on a fresh writer
whose stream accepts the three appends and the flush and fails the forced sync
with error 7. The call log ends with `Sync(true)` returning error 7, and the
call returns ok. -/
theorem C14_sync_failure_not_surfaced :
    ∃ r w1 d1 h, (Writer.create sampleExternals
        (WritableFileWriter.fresh [Reply.ok, Reply.ok, Reply.ok, Reply.ok, Reply.fail 7 0])
        7 4096 false).AddRecord sampleExternals junkAA [107, 49] [118, 49] = some (r, w1) ∧
      w1.dest_ = some d1 ∧
      d1.calls = [(Call.Append h, Status.ok), (Call.Append [107, 49], Status.ok),
        (Call.Append [118, 49], Status.ok), (Call.Flush, Status.ok),
        (Call.Sync true, Status.error 7)] ∧
      r.status = Status.ok :=
  ⟨_, _, _, formatHeader sampleExternals junkAA sampleExternals.kFullType
      sampleExternals.kRegularType [107, 49] [118, 49] (-1) (-1), rfl, rfl, rfl, rfl⟩

/-! ## What the calls leave alone -/

/-- C16: on a writer that holds a stream, `WriteHeader`, `AppendFooter` and
both `AddRecord` variants leave `log_number_`, `bytes_per_sync_`, `use_fsync_`
and the table `type_crc_` unchanged; `WriteHeader` and `AppendFooter` moreover
leave `next_sync_offset_` unchanged and add no `Sync` to the calls made on the
stream; and with any other table `tbl` in place of `type_crc_` every call
returns the same status and offsets and leaves the same stream (the same bytes
and the same calls). -/
theorem C16_frame (x : Externals) (w : Writer) (d : WritableFileWriter)
    (junk : Nat → Nat) (key val str : List Nat) (ttl : Nat) (tbl : List Nat)
    (hd : w.dest_ = some d) :
    (∃ s w1 d1, w.WriteHeader str = some (s, w1) ∧ w1.dest_ = some d1 ∧ frameKept w w1 ∧
      w1.next_sync_offset_ = w.next_sync_offset_ ∧ syncCount d1.calls = syncCount d.calls ∧
      (Writer.WriteHeader { w with type_crc_ := tbl } str).map
        (fun p : Status × Writer => (p.1, p.2.dest_))
        = some (s, some d1)) ∧
    (∃ s w1 d1, w.AppendFooter str = some (s, w1, d1) ∧ frameKept w w1 ∧
      w1.next_sync_offset_ = w.next_sync_offset_ ∧ syncCount d1.calls = syncCount d.calls ∧
      (Writer.AppendFooter { w with type_crc_ := tbl } str).map
        (fun p : Status × Writer × WritableFileWriter => (p.1, p.2.2))
        = some (s, d1)) ∧
    (∃ r w1 d1, w.AddRecord x junk key val = some (r, w1) ∧ w1.dest_ = some d1 ∧
      frameKept w w1 ∧
      (Writer.AddRecord x { w with type_crc_ := tbl } junk key val).map
        (fun p : Ret × Writer => (p.1, p.2.dest_))
        = some (r, some d1)) ∧
    (∃ r w1 d1, w.AddRecordTTL x junk key val ttl = some (r, w1) ∧ w1.dest_ = some d1 ∧
      frameKept w w1 ∧
      (Writer.AddRecordTTL x { w with type_crc_ := tbl } junk key val ttl).map
        (fun p : Ret × Writer => (p.1, p.2.dest_)) = some (r, some d1)) := by
  have hd2 : ({ w with type_crc_ := tbl } : Writer).dest_ = some d := hd
  have e1 := WriteHeader_eq w d str hd
  have e1t := WriteHeader_eq { w with type_crc_ := tbl } d str hd2
  have e2 := AppendFooter_eq w d str hd
  have e2t := AppendFooter_eq { w with type_crc_ := tbl } d str hd2
  have hS : ∀ f : WritableFileWriter,
      syncCount (f.calls ++ [(Call.Flush, f.Flush.1)]) = syncCount f.calls ∧
      syncCount (f.calls ++ [(Call.Close, f.Close.1)]) = syncCount f.calls := by
    intro f
    simp [syncCount_append, syncCount]
  have hA : syncCount (d.Append str).2.calls = syncCount d.calls := by
    rw [Append_calls, syncCount_append]
    simp [syncCount]
  refine ⟨?_, ?_,
    ⟨_, _, _, emit_eq x w d junk _ _ key val _ _ hd, rfl, ⟨rfl, rfl, rfl, rfl⟩, ?_⟩,
    ⟨_, _, _, emit_eq x w d junk _ _ key val _ _ hd, rfl, ⟨rfl, rfl, rfl, rfl⟩, ?_⟩⟩
  · by_cases h1 : (d.Append str).1.isOk = true
    · rw [if_pos h1] at e1 e1t
      refine ⟨_, _, _, e1, rfl, ⟨rfl, rfl, rfl, rfl⟩, rfl, ?_, by rw [e1t]; rfl⟩
      show syncCount (d.Append str).2.Flush.2.calls = _
      rw [Flush_calls, (hS _).1, hA]
    · rw [if_neg h1] at e1 e1t
      exact ⟨_, _, _, e1, rfl, ⟨rfl, rfl, rfl, rfl⟩, rfl, hA, by rw [e1t]; rfl⟩
  · by_cases h1 : (d.Append str).1.isOk = true
    · rw [if_pos h1] at e2 e2t
      refine ⟨_, _, _, e2, ⟨rfl, rfl, rfl, rfl⟩, rfl, ?_, by rw [e2t]; rfl⟩
      have hc : (d.Append str).2.Close.2.calls
          = (d.Append str).2.calls ++ [(Call.Close, (d.Append str).2.Close.1)] := rfl
      rw [hc, (hS _).2, hA]
    · rw [if_neg h1] at e2 e2t
      exact ⟨_, _, _, e2, ⟨rfl, rfl, rfl, rfl⟩, rfl, hA, by rw [e2t]; rfl⟩
  · show (Writer.EmitPhysicalRecord x { w with type_crc_ := tbl } junk _ _ key val _ _).map _ = _
    rw [emit_eq x { w with type_crc_ := tbl } d junk _ _ key val _ _ hd2]
    rfl
  · show (Writer.EmitPhysicalRecord x { w with type_crc_ := tbl } junk _ _ key val _ _).map _ = _
    rw [emit_eq x { w with type_crc_ := tbl } d junk _ _ key val _ _ hd2]
    rfl

/-- C16 at a concrete input: a fresh writer, a header or footer of three bytes,
the key "k1", the value "v1", the ttl 3600 and the table `[1, 2, 3]`. -/
theorem C16_frame_witness :
    (Writer.create sampleExternals (WritableFileWriter.fresh []) 7 4096 false).dest_
      = some (WritableFileWriter.fresh []) ∧
    ∃ s w1 d1, (Writer.create sampleExternals (WritableFileWriter.fresh []) 7 4096
        false).WriteHeader [1, 2, 3] = some (s, w1) ∧ w1.dest_ = some d1 ∧
      frameKept (Writer.create sampleExternals (WritableFileWriter.fresh []) 7 4096 false) w1 ∧
      w1.next_sync_offset_ = 0 ∧ syncCount d1.calls = 0 :=
  ⟨rfl, by
    obtain ⟨⟨s, w1, d1, hw, hd1, hf, hn, hs, -⟩, -⟩ :=
      C16_frame sampleExternals
        (Writer.create sampleExternals (WritableFileWriter.fresh []) 7 4096 false)
        (WritableFileWriter.fresh []) junkAA [107, 49] [118, 49] [1, 2, 3] 3600 [1, 2, 3] rfl
    exact ⟨s, w1, d1, hw, hd1, hf, hn, hs⟩⟩

/-! ## The sync schedule over a run -/

theorem emit_sched (x : Externals) (w : Writer) (d : WritableFileWriter)
    (junk : Nat → Nat) (t st : Nat) (key val : List Nat) (ttl ts : Int)
    (hd : w.dest_ = some d) :
    ∃ r w1 d1, w.EmitPhysicalRecord x junk t st key val ttl ts = some (r, w1) ∧
      w1.dest_ = some d1 ∧ w1.bytes_per_sync_ = w.bytes_per_sync_ ∧
      w1.block_offset_ = (w.block_offset_ + (kHeaderSize + key.length + val.length)) % 2 ^ 64 ∧
      (w1.block_offset_ > w.next_sync_offset_ →
        syncCount d1.calls = syncCount d.calls + 1 ∧
        w1.next_sync_offset_ = (w.next_sync_offset_ + w.bytes_per_sync_) % 2 ^ 64 ∧
        ∃ pre s, d1.calls = d.calls ++ pre ++ [(Call.Sync true, s)] ∧ syncCount pre = 0) ∧
      (¬ w1.block_offset_ > w.next_sync_offset_ →
        syncCount d1.calls = syncCount d.calls ∧
        w1.next_sync_offset_ = w.next_sync_offset_) := by
  obtain ⟨s, rest, hc, hn⟩ :=
    writeRecord_calls d (formatHeader x junk t st key val ttl ts) key val
  by_cases hsd : syncDue w key val = true
  · have hgt : advanced w key val > w.next_sync_offset_ := by simpa [syncDue] using hsd
    refine ⟨_, _, _, emit_eq x w d junk t st key val ttl ts hd, rfl, rfl, rfl, ?_, ?_⟩
    · intro _
      refine ⟨?_, by simp only [hsd, if_true], (Call.Append _, s) :: rest,
        ((writeRecord d (formatHeader x junk t st key val ttl ts) key val).2.Sync true).1,
        ?_, hn⟩
      · simp only [hsd, if_true, Sync_calls, hc]
        rw [syncCount_append, syncCount_append, hn]
        simp [syncCount]
      · simp only [hsd, if_true, Sync_calls, hc]
    · intro hng
      exact absurd hgt hng
  · have hf : syncDue w key val = false := by simpa using hsd
    have hng : ¬ advanced w key val > w.next_sync_offset_ := by simpa [syncDue] using hsd
    refine ⟨_, _, _, emit_eq x w d junk t st key val ttl ts hd, rfl, rfl, rfl, ?_, ?_⟩
    · intro hgt
      exact absurd hgt hng
    · intro _
      refine ⟨?_, by simp only [hf, Bool.false_eq_true, if_false]⟩
      simp only [hf, Bool.false_eq_true, if_false, hc]
      rw [syncCount_append, hn]
      rfl

theorem WriteHeader_sched (w : Writer) (d : WritableFileWriter) (str : List Nat)
    (hd : w.dest_ = some d) :
    ∃ s w1 d1, w.WriteHeader str = some (s, w1) ∧ w1.dest_ = some d1 ∧
      w1.bytes_per_sync_ = w.bytes_per_sync_ ∧
      w1.next_sync_offset_ = w.next_sync_offset_ ∧
      syncCount d1.calls = syncCount d.calls ∧
      (w1.block_offset_ = w.block_offset_ ∨
        w1.block_offset_ = (w.block_offset_ + str.length) % 2 ^ 64) := by
  have e1 := WriteHeader_eq w d str hd
  have hA : syncCount (d.Append str).2.calls = syncCount d.calls := by
    rw [Append_calls, syncCount_append]
    simp [syncCount]
  by_cases h1 : (d.Append str).1.isOk = true
  · rw [if_pos h1] at e1
    refine ⟨_, _, _, e1, rfl, rfl, rfl, ?_, Or.inr rfl⟩
    show syncCount (d.Append str).2.Flush.2.calls = _
    rw [Flush_calls, syncCount_append, hA]
    simp [syncCount]
  · rw [if_neg h1] at e1
    exact ⟨_, _, _, e1, rfl, rfl, rfl, hA, Or.inl rfl⟩

theorem step_sched (x : Externals) (w : Writer) (d : WritableFileWriter) (o : Op)
    (hd : w.dest_ = some d) :
    ∃ r w1 d1, w.step x o = some (r, w1) ∧ w1.dest_ = some d1 ∧
      w1.bytes_per_sync_ = w.bytes_per_sync_ ∧
      w1.block_offset_ ≤ w.block_offset_ + o.size ∧
      (w.block_offset_ + o.size < 2 ^ 64 → w.block_offset_ ≤ w1.block_offset_) ∧
      (o.isRecord = false →
        w1.next_sync_offset_ = w.next_sync_offset_ ∧
        syncCount d1.calls = syncCount d.calls) ∧
      (o.isRecord = true →
        w1.block_offset_ = (w.block_offset_ + o.size) % 2 ^ 64 ∧
        (w1.block_offset_ > w.next_sync_offset_ →
          syncCount d1.calls = syncCount d.calls + 1 ∧
          w1.next_sync_offset_ = (w.next_sync_offset_ + w.bytes_per_sync_) % 2 ^ 64 ∧
          ∃ pre s, d1.calls = d.calls ++ pre ++ [(Call.Sync true, s)] ∧ syncCount pre = 0) ∧
        (¬ w1.block_offset_ > w.next_sync_offset_ →
          syncCount d1.calls = syncCount d.calls ∧
          w1.next_sync_offset_ = w.next_sync_offset_)) := by
  cases o with
  | WriteHeader str =>
    obtain ⟨s, w1, d1, hw, hd1, hb, hn, hs, hbo⟩ := WriteHeader_sched w d str hd
    refine ⟨{ status := s, key_offset := 0, blob_offset := 0 }, w1, d1,
      by simp [Writer.step, hw], hd1, hb, ?_, ?_, fun _ => ⟨hn, hs⟩,
      fun h => absurd h (by simp [Op.isRecord])⟩
    · simp only [Op.size]
      rcases hbo with hbo | hbo <;> rw [hbo]
      · omega
      · exact Nat.mod_le _ _
    · intro hlt
      simp only [Op.size] at hlt
      rcases hbo with hbo | hbo <;> rw [hbo]
      omega
  | AddRecord junk key val =>
    obtain ⟨r, w1, d1, he, hd1, hb, hbo, hyes, hno⟩ :=
      emit_sched x w d junk x.kFullType x.kRegularType key val (-1) (-1) hd
    refine ⟨r, w1, d1, he, hd1, hb, ?_, ?_, fun h => absurd h (by simp [Op.isRecord]),
      fun _ => ⟨hbo, hyes, hno⟩⟩
    · rw [hbo]
      exact Nat.mod_le _ _
    · intro hlt
      simp only [Op.size] at hlt
      rw [hbo]
      omega
  | AddRecordTTL junk key val ttl =>
    obtain ⟨r, w1, d1, he, hd1, hb, hbo, hyes, hno⟩ :=
      emit_sched x w d junk x.kFullType x.kTTLType key val (toInt32 ttl) kDefaultTs hd
    refine ⟨r, w1, d1, he, hd1, hb, ?_, ?_, fun h => absurd h (by simp [Op.isRecord]),
      fun _ => ⟨hbo, hyes, hno⟩⟩
    · rw [hbo]
      exact Nat.mod_le _ _
    · intro hlt
      simp only [Op.size] at hlt
      rw [hbo]
      omega

theorem step_cadence (x : Externals) (w : Writer) (d : WritableFileWriter) (o : Op)
    (B n : Nat) (hc : cadence B n w d) (hsz : n + o.size + B < 2 ^ 64) :
    ∃ r w1 d1, w.step x o = some (r, w1) ∧ cadence B (n + o.size) w1 d1 ∧
      w.block_offset_ ≤ w1.block_offset_ ∧
      (o.isRecord = true →
        w1.block_offset_ = w.block_offset_ + o.size ∧
        (syncCount d1.calls = syncCount d.calls + 1 ↔
          w1.block_offset_ > B * syncCount d.calls) ∧
        (syncCount d1.calls = syncCount d.calls ↔
          ¬ w1.block_offset_ > B * syncCount d.calls)) ∧
      (o.isRecord = false → syncCount d1.calls = syncCount d.calls) := by
  obtain ⟨hd, hb, hle, hn, hk⟩ := hc
  obtain ⟨r, w1, d1, hs, hd1, hb1, hup, hmono, hnr, hr⟩ := step_sched x w d o hd
  have hm := hmono (by omega)
  refine ⟨r, w1, d1, hs, ?_, hm, ?_, fun h => (hnr h).2⟩
  · cases ho : o.isRecord with
    | false =>
      obtain ⟨h1, h2⟩ := hnr ho
      exact ⟨hd1, by rw [hb1, hb], by omega, by rw [h1, h2, hn], by rw [h2]; omega⟩
    | true =>
      obtain ⟨hbo, hyes, hno⟩ := hr ho
      by_cases hgt : w1.block_offset_ > w.next_sync_offset_
      · obtain ⟨h1, h2, -⟩ := hyes hgt
        rw [hn] at hgt
        refine ⟨hd1, by rw [hb1, hb], by omega, ?_, ?_⟩
        · rw [h2, h1, hn, hb, Nat.mul_succ]
          exact Nat.mod_eq_of_lt (by omega)
        · rw [h1, Nat.mul_succ]
          omega
      · obtain ⟨h1, h2⟩ := hno hgt
        exact ⟨hd1, by rw [hb1, hb], by omega, by rw [h2, h1, hn], by rw [h1]; omega⟩
  · intro ho
    obtain ⟨hbo, hyes, hno⟩ := hr ho
    have hbo2 : w1.block_offset_ = w.block_offset_ + o.size := by
      rw [hbo]
      exact Nat.mod_eq_of_lt (by omega)
    refine ⟨hbo2, ?_, ?_⟩
    · by_cases hgt : w1.block_offset_ > w.next_sync_offset_
      · have h1 := (hyes hgt).1
        rw [hn] at hgt
        exact ⟨fun _ => hgt, fun _ => h1⟩
      · have h1 := (hno hgt).1
        rw [hn] at hgt
        exact ⟨fun h => by omega, fun h => absurd h hgt⟩
    · by_cases hgt : w1.block_offset_ > w.next_sync_offset_
      · have h1 := (hyes hgt).1
        rw [hn] at hgt
        exact ⟨fun h => by omega, fun h => absurd hgt h⟩
      · have h1 := (hno hgt).1
        rw [hn] at hgt
        exact ⟨fun _ => hgt, fun _ => h1⟩

theorem run_cadence (x : Externals) (B : Nat) (ops : List Op) :
    ∀ (w : Writer) (d : WritableFileWriter) (n : Nat), cadence B n w d →
      n + (ops.map Op.size).sum + B < 2 ^ 64 →
      ∃ rs w1 d1, w.run x ops = some (rs, w1) ∧
        cadence B (n + (ops.map Op.size).sum) w1 d1 := by
  induction ops with
  | nil =>
    intro w d n hc _
    exact ⟨[], w, d, rfl, by simpa using hc⟩
  | cons o os ih =>
    intro w d n hc hsz
    simp only [List.map_cons, List.sum_cons] at hsz ⊢
    obtain ⟨r, w1, d1, hs, hc1, -, -, -⟩ := step_cadence x w d o B n hc (by omega)
    obtain ⟨rs, w2, d2, hr, hc2⟩ := ih w1 d1 (n + o.size) hc1 (by omega)
    refine ⟨r :: rs, w2, d2, by simp [Writer.run, hs, hr], ?_⟩
    rw [← Nat.add_assoc]
    exact hc2

theorem create_cadence (x : Externals) (script : List Reply) (ln bps : Nat) (fs : Bool)
    (hB : bps < 2 ^ 64) :
    cadence bps 0 (Writer.create x (WritableFileWriter.fresh script) ln bps fs)
      (WritableFileWriter.fresh script) :=
  ⟨rfl, Nat.mod_eq_of_lt hB, Nat.le_refl 0, by simp [Writer.create, WritableFileWriter.fresh,
    syncCount], by simp [WritableFileWriter.fresh, syncCount]⟩

/-- C11: sync cadence. On a fresh writer with `bytes_per_sync = B` and no 64-bit
overflow (the sizes of all calls plus `B` stay below 2^64), at every point of
every sequence of calls, with `k` the number of syncs forced so far:
`next_sync_offset_` equals `B * k`; an `AddRecord` forces a sync exactly when
its resulting cumulative `block_offset_` exceeds `k * B` (so the sync number `k`
fires on the earliest `AddRecord` after the one that fired sync `k - 1` whose
resulting `block_offset_` exceeds `k * B`, the records in between having left it
at most `k * B`); and whenever `block_offset_` is already beyond
`next_sync_offset_`, as after a record larger than `B`, the following
`AddRecord` forces a sync. -/
theorem C11_sync_cadence (x : Externals) (script : List Reply) (ln bps : Nat) (fs : Bool)
    (pre : List Op) (o : Op) (hB : bps < 2 ^ 64)
    (hsz : ((pre ++ [o]).map Op.size).sum + bps < 2 ^ 64) :
    firesOnSchedule x (Writer.create x (WritableFileWriter.fresh script) ln bps fs) pre o
      bps := by
  simp only [List.map_append, List.sum_append, List.map_cons, List.map_nil, List.sum_cons,
    List.sum_nil, Nat.add_zero] at hsz
  obtain ⟨rs, w1, d1, hr, hc1⟩ :=
    run_cadence x bps pre _ _ 0 (create_cadence x script ln bps fs hB) (by omega)
  obtain ⟨r, w2, d2, hs, hc2, hm, hrec, hnr⟩ :=
    step_cadence x w1 d1 o bps _ hc1 (by omega)
  refine ⟨rs, w1, d1, r, w2, d2, hr, hc1.1, hs, hc2.1, hc1.2.2.2.1, hc2.2.2.2.1, hm, ?_, hnr⟩
  intro ho
  obtain ⟨h1, h2, h3⟩ := hrec ho
  refine ⟨h1, h2, h3, fun hlag => h2.mpr ?_⟩
  rw [hc1.2.2.2.1] at hlag
  omega

/-- C11 at a concrete input: `bytes_per_sync = 10`, a first record of 34 bytes
("k1", "v1"), then the record ("k2", "v2"). -/
theorem C11_sync_cadence_witness :
    (10 : Nat) < 2 ^ 64 ∧
    ((([Op.AddRecord junkAA [107, 49] [118, 49]] ++
        [Op.AddRecord junkAA [107, 50] [118, 50]]).map Op.size).sum + 10 < 2 ^ 64) ∧
    firesOnSchedule sampleExternals
      (Writer.create sampleExternals (WritableFileWriter.fresh []) 7 10 false)
      [Op.AddRecord junkAA [107, 49] [118, 49]] (Op.AddRecord junkAA [107, 50] [118, 50]) 10 :=
  ⟨by decide, by decide,
    C11_sync_cadence sampleExternals [] 7 10 false [Op.AddRecord junkAA [107, 49] [118, 49]]
      (Op.AddRecord junkAA [107, 50] [118, 50]) (by decide) (by decide)⟩

theorem emit_forcesSync (x : Externals) (w : Writer) (d : WritableFileWriter)
    (junk : Nat → Nat) (t st : Nat) (key val : List Nat) (ttl ts : Int)
    (hd : w.dest_ = some d)
    (hgt : (w.block_offset_ + (kHeaderSize + key.length + val.length)) % 2 ^ 64
      > w.next_sync_offset_) :
    forcesSync d (w.EmitPhysicalRecord x junk t st key val ttl ts)
      ((w.next_sync_offset_ + w.bytes_per_sync_) % 2 ^ 64) := by
  obtain ⟨r, w1, d1, he, hd1, -, hbo, hyes, -⟩ := emit_sched x w d junk t st key val ttl ts hd
  rw [← hbo] at hgt
  obtain ⟨-, h2, pre, s, hc, hp⟩ := hyes hgt
  exact ⟨r, w1, d1, pre, s, he, hd1, hc, hp, h2⟩

theorem headers_run (x : Externals) (hdrs : List (List Nat)) :
    ∀ (w : Writer) (d : WritableFileWriter), w.dest_ = some d →
      ∃ rs w1 d1, w.run x (hdrs.map Op.WriteHeader) = some (rs, w1) ∧ w1.dest_ = some d1 ∧
        w1.bytes_per_sync_ = w.bytes_per_sync_ ∧
        w1.next_sync_offset_ = w.next_sync_offset_ ∧
        syncCount d1.calls = syncCount d.calls ∧
        w1.block_offset_ ≤ w.block_offset_ + (hdrs.map List.length).sum := by
  induction hdrs with
  | nil =>
    intro w d hd
    exact ⟨[], w, d, rfl, hd, rfl, rfl, rfl, by simp⟩
  | cons str strs ih =>
    intro w d hd
    obtain ⟨r, w1, d1, hs, hd1, hb, hup, -, hnr, -⟩ :=
      step_sched x w d (Op.WriteHeader str) hd
    obtain ⟨h1, h2⟩ := hnr rfl
    obtain ⟨rs, w2, d2, hr, hd2, hb2, hn2, hs2, hbo2⟩ := ih w1 d1 hd1
    refine ⟨r :: rs, w2, d2, by simp [Writer.run, hs, hr], hd2, by rw [hb2, hb],
      by rw [hn2, h1], by rw [hs2, h2], ?_⟩
    simp only [Op.size] at hup
    simp only [List.map_cons, List.sum_cons]
    omega

/-- C18: on a freshly constructed writer, for every `bytes_per_sync`, every key
and value, and after any number of `WriteHeader` calls (none, one or several,
successful or not), no sync has been made on the stream and the first
`AddRecord` (either variant) forces one `Sync(true)`, after which
`next_sync_offset_` equals `bytes_per_sync_`. The sizes are such that
`block_offset_` does not overflow 2^64. -/
theorem C18_first_record_syncs (x : Externals) (script : List Reply) (ln bps : Nat) (fs : Bool)
    (hdrs : List (List Nat)) (junk : Nat → Nat) (key val : List Nat) (ttl : Nat)
    (hsz : (hdrs.map List.length).sum + 30 + key.length + val.length < 2 ^ 64) :
    ∃ rs w1 d1,
      (Writer.create x (WritableFileWriter.fresh script) ln bps fs).run x
        (hdrs.map Op.WriteHeader) = some (rs, w1) ∧
      w1.dest_ = some d1 ∧ syncCount d1.calls = 0 ∧
      forcesSync d1 (w1.AddRecord x junk key val)
        (Writer.create x (WritableFileWriter.fresh script) ln bps fs).bytes_per_sync_ ∧
      forcesSync d1 (w1.AddRecordTTL x junk key val ttl)
        (Writer.create x (WritableFileWriter.fresh script) ln bps fs).bytes_per_sync_ := by
  obtain ⟨rs, w1, d1, hr, hd1, hb, hn, hs, hbo⟩ :=
    headers_run x hdrs (Writer.create x (WritableFileWriter.fresh script) ln bps fs)
      (WritableFileWriter.fresh script) rfl
  have hn0 : w1.next_sync_offset_ = 0 := hn
  have hbo0 : w1.block_offset_ ≤ (hdrs.map List.length).sum := by
    have h0 : (Writer.create x (WritableFileWriter.fresh script) ln bps fs).block_offset_ = 0 :=
      rfl
    rw [h0] at hbo
    omega
  have hgt : (w1.block_offset_ + (kHeaderSize + key.length + val.length)) % 2 ^ 64
      > w1.next_sync_offset_ := by
    unfold kHeaderSize
    rw [hn0]
    omega
  have hnso : (w1.next_sync_offset_ + w1.bytes_per_sync_) % 2 ^ 64
      = (Writer.create x (WritableFileWriter.fresh script) ln bps fs).bytes_per_sync_ := by
    rw [hn0, hb, Nat.zero_add]
    exact Nat.mod_mod _ _
  have f1 := emit_forcesSync x w1 d1 junk x.kFullType x.kRegularType key val (-1) (-1) hd1 hgt
  have f2 := emit_forcesSync x w1 d1 junk x.kFullType x.kTTLType key val (toInt32 ttl)
    kDefaultTs hd1 hgt
  rw [hnso] at f1 f2
  exact ⟨rs, w1, d1, hr, hd1, hs, f1, f2⟩

/-- C18 at a concrete input: `bytes_per_sync = 4096`, one `WriteHeader` of three
bytes whose append fails, then the record ("k1", "v1"), ttl 3600. -/
theorem C18_first_record_syncs_witness :
    (([[1, 2, 3]].map List.length).sum + 30 + [107, 49].length + [118, 49].length < 2 ^ 64) ∧
    ∃ rs w1 d1,
      (Writer.create sampleExternals (WritableFileWriter.fresh [Reply.fail 5 0]) 7 4096
        false).run sampleExternals ([[1, 2, 3]].map Op.WriteHeader) = some (rs, w1) ∧
      w1.dest_ = some d1 ∧ syncCount d1.calls = 0 ∧
      forcesSync d1 (w1.AddRecord sampleExternals junkAA [107, 49] [118, 49])
        (Writer.create sampleExternals (WritableFileWriter.fresh [Reply.fail 5 0]) 7 4096
          false).bytes_per_sync_ ∧
      forcesSync d1 (w1.AddRecordTTL sampleExternals junkAA [107, 49] [118, 49] 3600)
        (Writer.create sampleExternals (WritableFileWriter.fresh [Reply.fail 5 0]) 7 4096
          false).bytes_per_sync_ :=
  ⟨by decide,
    C18_first_record_syncs sampleExternals [Reply.fail 5 0] 7 4096 false [[1, 2, 3]] junkAA
      [107, 49] [118, 49] 3600 (by decide)⟩

theorem zero_budget_run (x : Externals) (ops : List Op) :
    ∀ (w : Writer) (d : WritableFileWriter), w.dest_ = some d → w.bytes_per_sync_ = 0 →
      w.next_sync_offset_ = 0 →
      ∃ rs w1 d1, w.run x ops = some (rs, w1) ∧ w1.dest_ = some d1 ∧
        w1.bytes_per_sync_ = 0 ∧ w1.next_sync_offset_ = 0 := by
  induction ops with
  | nil =>
    intro w d hd hb hn
    exact ⟨[], w, d, rfl, hd, hb, hn⟩
  | cons o os ih =>
    intro w d hd hb hn
    obtain ⟨r, w1, d1, hs, hd1, hb1, -, -, hnr, hr⟩ := step_sched x w d o hd
    have hn1 : w1.next_sync_offset_ = 0 := by
      cases ho : o.isRecord with
      | false => rw [(hnr ho).1, hn]
      | true =>
        obtain ⟨-, hyes, hno⟩ := hr ho
        by_cases hgt : w1.block_offset_ > w.next_sync_offset_
        · rw [(hyes hgt).2.1, hn, hb]
          rfl
        · rw [(hno hgt).2, hn]
    obtain ⟨rs, w2, d2, hrun, hd2, hb2, hn2⟩ := ih w1 d1 hd1 (by rw [hb1, hb]) hn1
    exact ⟨r :: rs, w2, d2, by simp [Writer.run, hs, hrun], hd2, hb2, hn2⟩

/-- C19: on a writer constructed with `bytes_per_sync = 0`, after every sequence
of calls `next_sync_offset_` is still 0, and every `AddRecord` (either variant)
whose advance of `block_offset_` does not overflow 2^64 forces one `Sync(true)`
and leaves `next_sync_offset_` at 0: a zero budget does not disable syncing. -/
theorem C19_zero_budget_syncs_every_record (x : Externals) (script : List Reply) (ln : Nat)
    (fs : Bool) (pre : List Op) (junk : Nat → Nat) (key val : List Nat) (ttl : Nat) :
    ∃ rs w1 d1,
      (Writer.create x (WritableFileWriter.fresh script) ln 0 fs).run x pre = some (rs, w1) ∧
      w1.dest_ = some d1 ∧ w1.bytes_per_sync_ = 0 ∧ w1.next_sync_offset_ = 0 ∧
      (w1.block_offset_ + 30 + key.length + val.length < 2 ^ 64 →
        forcesSync d1 (w1.AddRecord x junk key val) 0 ∧
        forcesSync d1 (w1.AddRecordTTL x junk key val ttl) 0) := by
  obtain ⟨rs, w1, d1, hr, hd1, hb, hn⟩ :=
    zero_budget_run x pre (Writer.create x (WritableFileWriter.fresh script) ln 0 fs)
      (WritableFileWriter.fresh script) rfl rfl rfl
  refine ⟨rs, w1, d1, hr, hd1, hb, hn, fun hsz => ?_⟩
  have hgt : (w1.block_offset_ + (kHeaderSize + key.length + val.length)) % 2 ^ 64
      > w1.next_sync_offset_ := by
    unfold kHeaderSize
    rw [hn]
    omega
  have hnso : (w1.next_sync_offset_ + w1.bytes_per_sync_) % 2 ^ 64 = 0 := by
    rw [hn, hb]
    rfl
  have f1 := emit_forcesSync x w1 d1 junk x.kFullType x.kRegularType key val (-1) (-1) hd1 hgt
  have f2 := emit_forcesSync x w1 d1 junk x.kFullType x.kTTLType key val (toInt32 ttl)
    kDefaultTs hd1 hgt
  rw [hnso] at f1 f2
  exact ⟨f1, f2⟩

/-- C19 at a concrete input: `bytes_per_sync = 0`, after the record ("k1", "v1")
`block_offset_` is 34 and the record ("k2", "v2") forces a sync again. -/
theorem C19_zero_budget_syncs_every_record_witness :
    ∃ rs w1 d1,
      (Writer.create sampleExternals (WritableFileWriter.fresh []) 7 0 false).run
        sampleExternals [Op.AddRecord junkAA [107, 49] [118, 49]] = some (rs, w1) ∧
      w1.dest_ = some d1 ∧ w1.next_sync_offset_ = 0 ∧
      w1.block_offset_ + 30 + [107, 50].length + [118, 50].length < 2 ^ 64 ∧
      forcesSync d1 (w1.AddRecord sampleExternals junkAA [107, 50] [118, 50]) 0 ∧
      forcesSync d1 (w1.AddRecordTTL sampleExternals junkAA [107, 50] [118, 50] 3600) 0 := by
  obtain ⟨rs, w1, d1, hr, hd1, -, hn, himp⟩ :=
    C19_zero_budget_syncs_every_record sampleExternals [] 7 false
      [Op.AddRecord junkAA [107, 49] [118, 49]] junkAA [107, 50] [118, 50] 3600
  have hc : ∃ rs0 w0, (Writer.create sampleExternals (WritableFileWriter.fresh []) 7 0
        false).run sampleExternals [Op.AddRecord junkAA [107, 49] [118, 49]] = some (rs0, w0) ∧
      w0.block_offset_ = 34 := ⟨_, _, rfl, rfl⟩
  obtain ⟨rs0, w0, h0, hb0⟩ := hc
  rw [hr] at h0
  simp only [Option.some.injEq, Prod.mk.injEq] at h0
  have hbo : w1.block_offset_ = 34 := by rw [h0.2, hb0]
  have hlt : w1.block_offset_ + 30 + [107, 50].length + [118, 50].length < 2 ^ 64 := by
    rw [hbo]
    decide
  exact ⟨rs, w1, d1, hr, hd1, hn, hlt, (himp hlt).1, (himp hlt).2⟩

end BlobLog

namespace Nvmf

/-! ## `nvmf_tgt_init` -/

theorem init_out_of_range (c : Constants) (env : Env) (g : State) (qd mc : Int)
    (h : ¬ inRange c qd mc) :
    (nvmf_tgt_init c env g qd mc).1 = -c.EINVAL ∧
    (nvmf_tgt_init c env g qd mc).2.events = g.events ∧
    (nvmf_tgt_init c env g qd mc).2.mutex_initialized = g.mutex_initialized ∧
    (nvmf_tgt_init c env g qd mc).2.request_mempool = g.request_mempool ∧
    (nvmf_tgt_init c env g qd mc).2.g_num_requests = g.g_num_requests := by
  unfold inRange at h
  unfold nvmf_tgt_init
  by_cases h1 : qd ≥ 1 ∧ qd ≤ c.SPDK_NVMF_DEFAULT_MAX_QUEUE_DEPTH
  · have h2 : ¬ (mc ≥ 1 ∧ mc ≤ c.SPDK_NVMF_DEFAULT_MAX_CONNECTIONS_PER_SESSION) :=
      fun h2 => h ⟨h1, h2⟩
    rw [if_pos h1]
    simp only []
    rw [if_neg h2]
    exact ⟨rfl, rfl, rfl, rfl, rfl⟩
  · rw [if_neg h1]
    exact ⟨rfl, rfl, rfl, rfl, rfl⟩

theorem product_fits (c : Constants) (qd mc : Int) (h : inRange c qd mc)
    (hfit : 4 * c.SPDK_NVMF_DEFAULT_MAX_CONNECTIONS_PER_SESSION *
      c.SPDK_NVMF_DEFAULT_MAX_QUEUE_DEPTH < 2 ^ 31) :
    0 < 4 * mc * qd ∧ 4 * mc * qd < 2 ^ 31 := by
  obtain ⟨⟨q1, q2⟩, m1, m2⟩ := h
  constructor
  · positivity
  · have h1 : mc * qd ≤ c.SPDK_NVMF_DEFAULT_MAX_CONNECTIONS_PER_SESSION *
        c.SPDK_NVMF_DEFAULT_MAX_QUEUE_DEPTH :=
      mul_le_mul m2 q2 (by omega) (by omega)
    nlinarith

theorem init_in_range (c : Constants) (env : Env) (g : State) (qd mc : Int)
    (h : inRange c qd mc) :
    (env.mutex_init_rc ≠ 0 →
      (nvmf_tgt_init c env g qd mc).1 = -1 ∧
      (nvmf_tgt_init c env g qd mc).2.events = g.events ++ [Event.mutex_init] ∧
      (nvmf_tgt_init c env g qd mc).2.request_mempool = g.request_mempool) ∧
    (env.mutex_init_rc = 0 →
      (nvmf_tgt_init c env g qd mc).1 = (if env.mempool_created then 0 else -1) ∧
      (nvmf_tgt_init c env g qd mc).2.events = g.events ++ [Event.mutex_init,
        Event.mempool_create ((MAX_SUBSYSTEMS * mc * qd) % 2 ^ 32).toNat] ∧
      (nvmf_tgt_init c env g qd mc).2.g_num_requests
        = ((MAX_SUBSYSTEMS * mc * qd) % 2 ^ 32).toNat) := by
  obtain ⟨⟨q1, q2⟩, m1, m2⟩ := h
  have hq : qd ≥ 1 ∧ qd ≤ c.SPDK_NVMF_DEFAULT_MAX_QUEUE_DEPTH := ⟨q1, q2⟩
  have hm : mc ≥ 1 ∧ mc ≤ c.SPDK_NVMF_DEFAULT_MAX_CONNECTIONS_PER_SESSION := ⟨m1, m2⟩
  unfold nvmf_tgt_init
  rw [if_pos hq]
  simp only []
  rw [if_pos hm]
  constructor
  · intro hrc
    rw [if_pos hrc]
    exact ⟨rfl, rfl, rfl⟩
  · intro hrc
    rw [if_neg (not_not.mpr hrc)]
    unfold spdk_nvmf_initialize_pools
    cases hp : env.mempool_created <;> by_cases hs : g.sin_port = 0 <;>
      simp [hp, hs]

/-- C20, as amended: with `EINVAL` other than 0 and 1 and four times the product
of the two limits fitting in an `int`, `nvmf_tgt_init(max_queue_depth,
max_conn_per_sess)` returns `-EINVAL` if and only if `max_queue_depth` is
outside `[1, SPDK_NVMF_DEFAULT_MAX_QUEUE_DEPTH]` or `max_conn_per_sess` is
outside `[1, SPDK_NVMF_DEFAULT_MAX_CONNECTIONS_PER_SESSION]`; in that case no
mutex is initialised and no request pool is created; when both are in range and
`pthread_mutex_init` succeeds the pool is requested with exactly
`4 * max_conn_per_sess * max_queue_depth` elements, and when
`pthread_mutex_init` fails the function returns -1 without requesting a
pool. -/
theorem C20_init_range_check (c : Constants) (env : Env) (g : State) (qd mc : Int)
    (hE0 : c.EINVAL ≠ 0) (hE1 : c.EINVAL ≠ 1)
    (hfit : 4 * c.SPDK_NVMF_DEFAULT_MAX_CONNECTIONS_PER_SESSION *
      c.SPDK_NVMF_DEFAULT_MAX_QUEUE_DEPTH < 2 ^ 31) :
    initContract c env g qd mc := by
  refine ⟨⟨fun hret => ?_, fun hout => (init_out_of_range c env g qd mc hout).1⟩,
    fun hout => ⟨(init_out_of_range c env g qd mc hout).2.1,
      (init_out_of_range c env g qd mc hout).2.2.1,
      (init_out_of_range c env g qd mc hout).2.2.2.1⟩, ?_, ?_⟩
  · intro hin
    obtain ⟨hbad, hgood⟩ := init_in_range c env g qd mc hin
    by_cases hrc : env.mutex_init_rc = 0
    · have h1 := (hgood hrc).1
      rw [hret] at h1
      cases hp : env.mempool_created <;> simp [hp] at h1 <;> omega
    · have h1 := (hbad hrc).1
      rw [hret] at h1
      omega
  · intro hin hrc
    obtain ⟨hpos, hlt⟩ := product_fits c qd mc hin hfit
    have hmod : (MAX_SUBSYSTEMS * mc * qd) % 2 ^ 32 = 4 * mc * qd := by
      unfold MAX_SUBSYSTEMS
      exact Int.emod_eq_of_lt (by omega) (by omega)
    have h := ((init_in_range c env g qd mc hin).2 hrc).2
    rw [hmod] at h
    exact h
  · intro hin hrc
    have h := (init_in_range c env g qd mc hin).1 hrc
    exact ⟨h.1, h.2.1⟩

/-- C20 at a concrete input: limits 128 and 4, `EINVAL = 22`, both library calls
successful, `nvmf_tgt_init(16, 2)` on globals that are all zero. -/
theorem C20_init_range_check_witness :
    sampleConstants.EINVAL ≠ 0 ∧ sampleConstants.EINVAL ≠ 1 ∧
    4 * sampleConstants.SPDK_NVMF_DEFAULT_MAX_CONNECTIONS_PER_SESSION *
      sampleConstants.SPDK_NVMF_DEFAULT_MAX_QUEUE_DEPTH < 2 ^ 31 ∧
    initContract sampleConstants { mutex_init_rc := 0, mempool_created := true } zeroState
      16 2 :=
  ⟨by decide, by decide, by decide,
    C20_init_range_check sampleConstants { mutex_init_rc := 0, mempool_created := true }
      zeroState 16 2 (by decide) (by decide) (by decide)⟩

/-- C20 as the claim states it fails: with limits 128 and 4, `nvmf_tgt_init(16,
2)` has both arguments in range, but when `pthread_mutex_init` returns 12 the
function returns -1 after that one library call: no pool is requested. -/
theorem C20_counterexample :
    inRange sampleConstants 16 2 ∧
    (nvmf_tgt_init sampleConstants { mutex_init_rc := 12, mempool_created := true } zeroState
      16 2).1 = -1 ∧
    (nvmf_tgt_init sampleConstants { mutex_init_rc := 12, mempool_created := true } zeroState
      16 2).2.events = [Event.mutex_init] ∧
    Event.mempool_create 128 ∉ (nvmf_tgt_init sampleConstants
      { mutex_init_rc := 12, mempool_created := true } zeroState 16 2).2.events ∧
    (nvmf_tgt_init sampleConstants { mutex_init_rc := 12, mempool_created := true } zeroState
      16 2).2.request_mempool = none :=
  ⟨⟨⟨by decide, by decide⟩, by decide, by decide⟩, by decide, by decide, by decide, by decide⟩

end Nvmf
